import Mathlib

/-
Verification development for the AgentTown simulation engine
(agent_town_sim: world.py, agent.py, reactor.py).

The Python sources are shallowly embedded below.  Machine integers are
modelled as `Int` (Python ints are unbounded, so no wrap-around is needed);
Python dicts are modelled as insertion-ordered association lists with
Python-dict update semantics (`dget` / `dset` / `dpop`); the two calls to
the process-wide random source (`random.choice` in `_respawn_resource` and
the fallback move in `Agent.choose`, plus per-cell draws at world
generation) are modelled by explicit oracle parameters that select among
the same candidates the Python code draws from.  `World.add_agent`'s only
failure path (a fully occupied grid raises `RuntimeError`) is modelled by
an `Option` result, `none` standing for the raised error.
-/

set_option maxHeartbeats 1000000

namespace AgentTown

/-- Python dict lookup `d.get(k)`: the value bound to `k`, if any. -/
def dget {K V : Type} [DecidableEq K] : List (K × V) → K → Option V
  | [], _ => none
  | kv :: rest, k => if kv.1 = k then some kv.2 else dget rest k

/-- Python dict update `d[k] = v`: replace an existing binding in place
(keeping insertion order), else append a new binding. -/
def dset {K V : Type} [DecidableEq K] : List (K × V) → K → V → List (K × V)
  | [], k, v => [(k, v)]
  | kv :: rest, k, v => if kv.1 = k then (k, v) :: rest else kv :: dset rest k v

/-- Python dict removal `d.pop(k, None)`: drop the binding of `k`, if any. -/
def dpop {K V : Type} [DecidableEq K] : List (K × V) → K → List (K × V)
  | [], _ => []
  | kv :: rest, k => if kv.1 = k then dpop rest k else kv :: dpop rest k

/-- Python `range(n)` as a list of integers. -/
def intRange (n : Int) : List Int := (List.range n.toNat).map Nat.cast

/-- Python `range(-r, r + 1)` as a list of integers. -/
def intRangeSym (r : Int) : List Int :=
  (List.range (2 * r + 1).toNat).map (fun i => (Nat.cast i : Int) - r)

/-- Write `v` at column `x` of row `y` of a grid (row-major, as in the
Python `grid[y][x] = v`); out-of-range writes leave the grid unchanged,
mirroring that the Python code only writes after a bounds check. -/
def gridSet {α : Type} (g : List (List α)) (x y : Int) (v : α) : List (List α) :=
  g.set y.toNat ((g.getD y.toNat []).set x.toNat v)

/-- Build a `height × width` grid from a per-cell generator. -/
def gridOf {α : Type} (w h : Int) (f : Int → Int → α) : List (List α) :=
  (intRange h).map (fun y => (intRange w).map (fun x => f x y))

/-- `World.in_bounds`: `0 <= x < width and 0 <= y < height`. -/
def inBoundsXY (w h x y : Int) : Prop := 0 ≤ x ∧ x < w ∧ 0 ≤ y ∧ y < h

instance (w h x y : Int) : Decidable (inBoundsXY w h x y) := by
  unfold inBoundsXY; infer_instance

/-- `reactor.py` `Reactor`: a bounded energy accumulator. -/
structure Reactor where
  position : Int × Int
  capacity : Int
  energy : Int
deriving DecidableEq

/-- `Reactor.deposit`: returns the accepted amount and the updated reactor.
No-op (returns 0) if `amount <= 0` or the reactor is already full
(`is_full`: `energy >= capacity`); otherwise accepts
`min(amount, capacity - energy)`. -/
def Reactor.deposit (r : Reactor) (amount : Int) : Int × Reactor :=
  if amount ≤ 0 ∨ r.energy ≥ r.capacity then (0, r)
  else
    let accepted := min amount (r.capacity - r.energy)
    (accepted, { r with energy := r.energy + accepted })

/-- `Reactor.draw`: returns the drained amount and the updated reactor.
No-op if `amount <= 0`; otherwise removes `min(amount, energy)`. -/
def Reactor.draw (r : Reactor) (amount : Int) : Int × Reactor :=
  if amount ≤ 0 then (0, r)
  else
    let drained := min amount r.energy
    (drained, { r with energy := r.energy - drained })

/-- `agent.py` `Agent` dataclass.  The transient `pending_action` slot is
not stored here: the two-phase tick below carries the chosen actions in an
explicit intent list instead (same semantics, see `stepWith`). -/
structure Agent where
  id : String
  name : String
  position : Int × Int
  energy : Int
  max_capacity : Option Int
  vision_radius : Int
  pending_report : Int
deriving DecidableEq

/-- `models.py` `Act` together with the `params` each kind reads in
`World.apply` (after the `int(...)` coercions done there). -/
inductive ActionK where
  | move (dx dy : Int)
  | gather
  | deposit (amount : Int)
  | report (amount : Int)
  | request (amount : Int)
  | give (target : String) (amount : Int)
deriving DecidableEq

/-- `models.py` `Action`. -/
structure Action where
  actor : String
  kind : ActionK
deriving DecidableEq

/-- `world.py` `World` dataclass: configuration knobs plus all mutable
state.  Unused knobs (`energy_regen_rate`, `min_gather_amount`,
`resource_density`, `debug`) and logging are omitted; `resource_density`
only feeds the random per-cell draw at construction, which `worldInit`
takes as an explicit oracle. -/
structure World where
  width : Int
  height : Int
  tick : Int
  agents : List (String × Agent)
  max_energy : Int
  agent_energy_decay : Int
  reactor_agent_reserve : Int
  reactor_dwindle_rate : Int
  reactor_consumption_rate : Int
  aid_request_threshold : Int
  aid_give_buffer : Int
  aid_request_lifetime : Int
  aid_give_min_amount : Int
  help_signal_duration : Int
  energy_grid : List (List Int)
  resource_grid : List (List Bool)
  occupancy : List ((Int × Int) × String)
  reactor : Reactor
  deposit_reports : List (Int × String × Int × Int × Bool)
  help_requests : List (String × ((Int × Int) × Int × Int))
  helper_signals : List (String × Int)
deriving DecidableEq

/-- The construction-time knobs of `World` (the dataclass fields that are
plain numbers). -/
structure Config where
  width : Int
  height : Int
  max_energy : Int
  agent_energy_decay : Int
  reactor_capacity : Int
  reactor_initial_energy : Int
  reactor_agent_reserve : Int
  reactor_dwindle_rate : Int
  reactor_consumption_rate : Int
  aid_request_threshold : Int
  aid_give_buffer : Int
  aid_request_lifetime : Int
  aid_give_min_amount : Int
  help_signal_duration : Int

/-- `World.__post_init__`: build the grids (the per-cell
`random.random() < resource_density` draw is the oracle `draw`), clamp the
reactor's initial energy into `[0, capacity]`, place the reactor at the
grid centre (`width // 2, height // 2`, Python floor division) and force
its home cell to zero/non-resource when in bounds. -/
def worldInit (cfg : Config) (draw : Int → Int → Bool) : World :=
  let eg0 := gridOf cfg.width cfg.height (fun x y => if draw x y then cfg.max_energy else 0)
  let rg0 := gridOf cfg.width cfg.height (fun x y => draw x y)
  let cx := Int.fdiv cfg.width 2
  let cy := Int.fdiv cfg.height 2
  let eg := if inBoundsXY cfg.width cfg.height cx cy then gridSet eg0 cx cy 0 else eg0
  let rg := if inBoundsXY cfg.width cfg.height cx cy then gridSet rg0 cx cy false else rg0
  { width := cfg.width, height := cfg.height, tick := 0, agents := [],
    max_energy := cfg.max_energy, agent_energy_decay := cfg.agent_energy_decay,
    reactor_agent_reserve := cfg.reactor_agent_reserve,
    reactor_dwindle_rate := cfg.reactor_dwindle_rate,
    reactor_consumption_rate := cfg.reactor_consumption_rate,
    aid_request_threshold := cfg.aid_request_threshold,
    aid_give_buffer := cfg.aid_give_buffer,
    aid_request_lifetime := cfg.aid_request_lifetime,
    aid_give_min_amount := cfg.aid_give_min_amount,
    help_signal_duration := cfg.help_signal_duration,
    energy_grid := eg, resource_grid := rg, occupancy := [],
    reactor := { position := (cx, cy), capacity := cfg.reactor_capacity,
                 energy := max 0 (min cfg.reactor_initial_energy cfg.reactor_capacity) },
    deposit_reports := [], help_requests := [], helper_signals := [] }

/-- `World._clamp`. -/
def clampPos (w : World) (x y : Int) : Int × Int :=
  (max 0 (min (w.width - 1) x), max 0 (min (w.height - 1) y))

/-- `World._occupant`. -/
def occupantAt (w : World) (p : Int × Int) : Option String := dget w.occupancy p

/-- `World.is_occupied`. -/
def isOccupied (w : World) (x y : Int) : Bool := (occupantAt w (x, y)).isSome

/-- `World.cell_energy`: 0 out of bounds, else the stored grid value. -/
def cellEnergy (w : World) (x y : Int) : Int :=
  if inBoundsXY w.width w.height x y then (w.energy_grid.getD y.toNat []).getD x.toNat 0
  else 0

/-- Raw resource-flag read `resource_grid[y][x]` (only used by the code on
in-range coordinates). -/
def resourceAt (w : World) (x y : Int) : Bool :=
  (w.resource_grid.getD y.toNat []).getD x.toNat false

/-- The scan order of `World._ensure_free_position`
(`for ny in range(height): for nx in range(width)`). -/
def scanCells (w : World) : List (Int × Int) :=
  ((intRange w.height).map (fun ny => (intRange w.width).map (fun nx => (nx, ny)))).flatten

/-- `World._ensure_free_position`: the given position if free, else the
first free cell in scan order; `none` models the `RuntimeError` raised
when the whole grid is occupied. -/
def ensureFreePosition (w : World) (p : Int × Int) : Option (Int × Int) :=
  if (occupantAt w p).isSome then (scanCells w).find? (fun c => !(isOccupied w c.1 c.2))
  else some p

/-- `World.add_agent`: clamp the agent's position, relocate it to a free
cell if needed, then register it in `agents` and `occupancy`; `none`
models the fatal full-grid error. -/
def addAgent (w : World) (a : Agent) : Option World :=
  let p0 := clampPos w a.position.1 a.position.2
  match ensureFreePosition w p0 with
  | none => none
  | some p =>
    let a' := { a with position := p }
    some { w with agents := dset w.agents a.id a', occupancy := dset w.occupancy p a.id }

/-- `World._request_entry`: the help request of `agent_id` after the
liveness/positivity/lifetime filters, else `none`. -/
def requestEntry (w : World) (agentId : String) : Option ((Int × Int) × Int × Int) :=
  match dget w.help_requests agentId with
  | none => none
  | some (position, amount, tickLogged) =>
    if amount ≤ 0 then none
    else if (dget w.agents agentId).isNone then none
    else if w.aid_request_lifetime > 0 ∧ w.tick - tickLogged > w.aid_request_lifetime then none
    else some (position, amount, tickLogged)

/-- `World._prune_help_requests`: drop every entry whose `_request_entry`
snapshot is `None`. -/
def pruneHelpRequests (w : World) : World :=
  { w with help_requests := w.help_requests.filter (fun kv => (requestEntry w kv.1).isSome) }

/-- `World.active_help_requests`: prune, then return the map
requester -> (position, amount) in insertion order, together with the
mutated world. -/
def activeHelpRequests (w : World) : World × List (String × ((Int × Int) × Int)) :=
  let w1 := pruneHelpRequests w
  (w1, w1.help_requests.filterMap (fun kv =>
    match requestEntry w1 kv.1 with
    | none => none
    | some (position, amount, _) => some (kv.1, (position, amount))))

/-- `World.has_active_request`: prune, then test `_request_entry`. -/
def hasActiveRequest (w : World) (agentId : String) : World × Bool :=
  let w1 := pruneHelpRequests w
  (w1, (requestEntry w1 agentId).isSome)

/-- `World.cancel_help_request` / `World._clear_help_request`. -/
def cancelHelpRequest (w : World) (agentId : String) : World :=
  { w with help_requests := dpop w.help_requests agentId }

/-- `World.is_recent_helper`: a signal is "recent" when
`tick - last_tick <= max(0, help_signal_duration)`. -/
def isRecentHelper (w : World) (agentId : String) : Bool :=
  match dget w.helper_signals agentId with
  | none => false
  | some lastTick => decide (w.tick - lastTick ≤ max 0 w.help_signal_duration)

/-- `World._decay_helper_signals`: keep all signals when the duration is
negative, else drop those older than `max(0, duration)` ticks. -/
def decayHelperSignals (w : World) : World :=
  if w.help_signal_duration < 0 then w
  else
    let expiry := max 0 w.help_signal_duration
    let keep := w.helper_signals.filter (fun kv => decide (w.tick - kv.2 ≤ expiry))
    { w with helper_signals := keep }

/-- `World._update_request_position`: a live request tracks its owner's
position after a move. -/
def updateRequestPosition (w : World) (a : Agent) : World :=
  match dget w.help_requests a.id with
  | none => w
  | some (_, amount, tickLogged) =>
    { w with help_requests := dset w.help_requests a.id (a.position, amount, tickLogged) }

/-- The shortfall `World._maybe_clear_help_request` recomputes: the gap
between the aid threshold and the agent's energy (floored at 0), bounded
by the remaining capacity headroom when the agent has a maximum. -/
def requestShortfall (threshold : Int) (a : Agent) : Int :=
  let shortfall0 := max 0 (threshold - a.energy)
  match a.max_capacity with
  | none => shortfall0
  | some c => min shortfall0 (max 0 (c - a.energy))

/-- `World._maybe_clear_help_request`, taking the (already mutated) agent
object as the Python code does: clear the request outright when the
agent's energy exceeds the aid threshold, else re-point it at the
remaining shortfall (`requestShortfall`), clearing it when that shortfall
is non-positive. -/
def maybeClearHelpRequest (w : World) (a : Agent) : World :=
  match dget w.help_requests a.id with
  | none => w
  | some (position, _, _) =>
    let threshold := max w.aid_request_threshold w.agent_energy_decay
    if a.energy > threshold then { w with help_requests := dpop w.help_requests a.id }
    else
      let shortfall := requestShortfall threshold a
      if shortfall ≤ 0 then { w with help_requests := dpop w.help_requests a.id }
      else { w with help_requests := dset w.help_requests a.id (position, shortfall, w.tick) }

/-- `World._deposit_energy` for the agent stored under key `agentId`:
no-op unless the agent is on the reactor cell with excess above the
reserve; otherwise the reactor accepts what it can and the agent's energy
and pending-report balance move by that amount. -/
def depositEnergy (w : World) (agentId : String) : World :=
  match dget w.agents agentId with
  | none => w
  | some a =>
    if a.position ≠ w.reactor.position then w
    else
      let excess := max 0 (a.energy - w.reactor_agent_reserve)
      if excess ≤ 0 then w
      else
        let dep := Reactor.deposit w.reactor excess
        let w1 := { w with reactor := dep.2 }
        if dep.1 ≤ 0 then w1
        else
          let a' := { a with energy := a.energy - dep.1,
                             pending_report := a.pending_report + dep.1 }
          { w1 with agents := dset w1.agents agentId a' }

/-- `World._auto_deposit`: guard on the reactor position and delegate; the
guard is re-checked inside `_deposit_energy`, so the net effect is exactly
`depositEnergy`. -/
def autoDeposit (w : World) (agentId : String) : World := depositEnergy w agentId

/-- The candidate list of `World._respawn_resource`: every scan-order cell
without a resource, excluding the just-depleted cell. -/
def respawnCandidates (w : World) (depleted : Int × Int) : List (Int × Int) :=
  (scanCells w).filter (fun c => !(resourceAt w c.1 c.2) && decide (c ≠ depleted))

/-- `World._respawn_resource`: pick a cell without a resource other than
the depleted one (the `random.choice` is modelled by `oracle` indexing
into the same candidate list); if none exists, refresh the depleted cell;
the chosen cell becomes a resource holding `max_energy`. -/
def respawnResource (w : World) (depleted : Int × Int) (oracle : Nat) : World :=
  let candidates := respawnCandidates w depleted
  let target := if candidates.isEmpty then depleted
    else candidates.getD (oracle % candidates.length) depleted
  { w with resource_grid := gridSet w.resource_grid target.1 target.2 true,
           energy_grid := gridSet w.energy_grid target.1 target.2 w.max_energy }

/-- The first half of `World._deplete_resource`: the depleted cell's
energy and resource flag are cleared (this is the state
`_respawn_resource` then reads). -/
def depletedView (w : World) (p : Int × Int) : World :=
  { w with energy_grid := gridSet w.energy_grid p.1 p.2 0,
           resource_grid := gridSet w.resource_grid p.1 p.2 false }

/-- `World._deplete_resource`: zero the cell, clear its flag, respawn. -/
def depleteResource (w : World) (p : Int × Int) (oracle : Nat) : World :=
  respawnResource (depletedView w p) p oracle

/-- `World._gather_energy` for the agent stored under key `agentId`:
no-op when the current cell's energy is non-positive; else the agent
collects all of it, its help request (if any) is re-evaluated, and the
resource is depleted and respawned. -/
def gatherEnergy (w : World) (agentId : String) (oracle : Nat) : World :=
  match dget w.agents agentId with
  | none => w
  | some a =>
    let x := a.position.1
    let y := a.position.2
    let available := cellEnergy w x y
    if available ≤ 0 then w
    else
      let w1 := { w with energy_grid := gridSet w.energy_grid x y 0 }
      let a' := { a with energy := a.energy + available }
      let w2 := { w1 with agents := dset w1.agents agentId a' }
      let w3 := maybeClearHelpRequest w2 a'
      depleteResource w3 (x, y) oracle

/-- `World._move` for the agent stored under key `agentId`: clamp the
target back in bounds, no-op when the target equals the source or is
occupied by a different agent; else occupancy and position update, the
live request is repositioned, and an auto-deposit is attempted. -/
def moveTo (w : World) (agentId : String) (a : Agent) (n : Int × Int) : World :=
  if n = (a.position.1, a.position.2) then w
  else
    let blocked := match occupantAt w n with
      | some occ => decide (occ ≠ agentId)
      | none => false
    if blocked then w
    else
      let a' := { a with position := n }
      let occ' := dset (dpop w.occupancy (a.position.1, a.position.2)) n agentId
      let w1 := { w with occupancy := occ', agents := dset w.agents agentId a' }
      let w2 := updateRequestPosition w1 a'
      autoDeposit w2 agentId

/-- See `moveTo` for the body once the target cell is clamped. -/
def moveAgent (w : World) (agentId : String) (dx dy : Int) : World :=
  match dget w.agents agentId with
  | none => w
  | some a =>
    let n0 := (a.position.1 + dx, a.position.2 + dy)
    moveTo w agentId a (if inBoundsXY w.width w.height n0.1 n0.2 then n0
      else clampPos w n0.1 n0.2)

/-- `World._record_deposit_report` for the agent stored under `agentId`:
no-op when both the pending balance and the (floored) claim are
non-positive; else credit `min(pending, claimed)` (0 without a pending
balance), lower the pending balance, and append a ledger entry
`(tick, agent.id, actual, claimed, claimed != actual)`, evicting the
oldest entry beyond 50. -/
def recordDepositReport (w : World) (agentId : String) (amount : Int) : World :=
  match dget w.agents agentId with
  | none => w
  | some a =>
    let pendingBefore := a.pending_report
    let claimed := max 0 amount
    if pendingBefore ≤ 0 ∧ claimed ≤ 0 then w
    else
      let actual := if pendingBefore > 0 then min pendingBefore claimed else 0
      let agents' := if pendingBefore > 0 then
          dset w.agents agentId { a with pending_report := max 0 (pendingBefore - actual) }
        else w.agents
      let lie : Bool := decide (claimed ≠ actual)
      let reports := w.deposit_reports ++ [(w.tick, a.id, actual, claimed, lie)]
      let reports := if reports.length > 50 then reports.drop 1 else reports
      { w with agents := agents', deposit_reports := reports }

/-- `World._register_help_request` for the agent stored under `agentId`:
store `max(threshold - energy, capacity-capped amount)` when positive. -/
def registerHelpRequest (w : World) (agentId : String) (amount : Int) : World :=
  match dget w.agents agentId with
  | none => w
  | some a =>
    let threshold := max w.aid_request_threshold w.agent_energy_decay
    let desiredDefault := max 0 (threshold - a.energy)
    let requestCap := match a.max_capacity with
      | none => max 0 amount
      | some c => min (max 0 amount) (max 0 (c - a.energy))
    let requested := max desiredDefault requestCap
    if requested ≤ 0 then w
    else { w with help_requests := dset w.help_requests a.id (a.position, requested, w.tick) }

/-- The `transfer_capacity` computation of `World._give_energy`: the
minimum of the donor's spare above reserve+buffer, the desired transfer
`max(min_amount, max(0, amount))`, the outstanding request amount (or the
floored raw amount without an active request), and, when bounded, the
recipient's remaining capacity headroom. -/
def giveTransfer (w : World) (donor recipient : Agent) (amount : Int) : Int :=
  let retainFloor := max 0 w.reactor_agent_reserve
  let giveBuffer := max 0 w.aid_give_buffer
  let minAmount := max 1 w.aid_give_min_amount
  let eligible := donor.energy - (retainFloor + giveBuffer)
  let requestedRemaining := match requestEntry w recipient.id with
    | some (_, amt, _) => amt
    | none => max 0 amount
  let desired := max minAmount (max 0 amount)
  let base := min eligible (min desired requestedRemaining)
  match recipient.max_capacity with
  | none => base
  | some c => min base (max 0 (c - recipient.energy))

/-- `World._give_energy` from the agent under `donorId` to the agent under
`targetId`: guards (missing target, self target, Chebyshev distance > 1,
no spare energy), then transfer `giveTransfer` many units; on success the
request is re-evaluated and the donor is marked a recent helper. -/
def giveEnergy (w : World) (donorId targetId : String) (amount : Int) : World :=
  match dget w.agents donorId with
  | none => w
  | some donor =>
  match dget w.agents targetId with
  | none => w
  | some recipient =>
    if recipient.id = donor.id then w
    else
      let dx := recipient.position.1 - donor.position.1
      let dy := recipient.position.2 - donor.position.2
      if max |dx| |dy| > 1 then w
      else
        let retainFloor := max 0 w.reactor_agent_reserve
        let giveBuffer := max 0 w.aid_give_buffer
        let eligible := donor.energy - (retainFloor + giveBuffer)
        if eligible ≤ 0 then w
        else
          let entry := requestEntry w recipient.id
          let transfer := giveTransfer w donor recipient amount
          if transfer ≤ 0 then w
          else
            let donor' := { donor with energy := donor.energy - transfer }
            let recipient' := { recipient with energy := recipient.energy + transfer }
            let w1 := { w with agents := dset (dset w.agents donorId donor') targetId recipient' }
            let w2 := match entry with
              | some (_, outstanding, _) =>
                let updated := max 0 (outstanding - transfer)
                let hr' := dset w1.help_requests recipient.id (recipient.position, updated, w1.tick)
                if updated > 0 then { w1 with help_requests := hr' }
                else { w1 with help_requests := dpop w1.help_requests recipient.id }
              | none => w1
            let w3 := maybeClearHelpRequest w2 recipient'
            { w3 with helper_signals := dset w3.helper_signals donor.id w3.tick }

/-- `World._dwindle_resources`: lower every positive cell by `amount`
(floored at 0) and clear the resource flag of cells that hit 0. -/
def dwindleResources (w : World) (amount : Int) : World :=
  if amount ≤ 0 then w
  else
    { w with
      energy_grid := w.energy_grid.map (fun row =>
        row.map (fun v => if v ≤ 0 then v else max 0 (v - amount))),
      resource_grid := (w.resource_grid.zip w.energy_grid).map (fun rowPair =>
        (rowPair.1.zip rowPair.2).map (fun cell =>
          if cell.2 ≤ 0 then cell.1
          else if max 0 (cell.2 - amount) ≤ 0 then false else cell.1)) }

/-- `World._consume_reactor_energy`. -/
def consumeReactor (w : World) : World :=
  if w.reactor_consumption_rate ≤ 0 then w
  else { w with reactor := (Reactor.draw w.reactor w.reactor_consumption_rate).2 }

/-- `World._apply_reactor_consequences`: dwindle only on an empty reactor. -/
def applyReactorConsequences (w : World) : World :=
  if w.reactor.energy ≤ 0 then dwindleResources w w.reactor_dwindle_rate else w

/-- The removal half of `World._decay_agent_energy` for one agent id:
unregister it from agents, occupancy (at its position), help requests and
helper signals. -/
def removeAgent (w : World) (agentId : String) : World :=
  match dget w.agents agentId with
  | none => w
  | some a =>
    { w with agents := dpop w.agents agentId,
             occupancy := dpop w.occupancy a.position,
             help_requests := dpop w.help_requests agentId,
             helper_signals := dpop w.helper_signals agentId }

/-- `World._decay_agent_energy`: drain every agent by the decay rate
(floored at 0), then remove and fully unregister those that reached 0. -/
def decayAgentEnergy (w : World) : World :=
  if w.agent_energy_decay ≤ 0 then w
  else
    let agents' := w.agents.map (fun kv =>
      (kv.1, { kv.2 with energy := max 0 (kv.2.energy - w.agent_energy_decay) }))
    let toRemove := (agents'.filter (fun kv => decide (kv.2.energy ≤ 0))).map (fun kv => kv.1)
    toRemove.foldl removeAgent { w with agents := agents' }

/-- `World.apply`: dispatch one action; a missing actor is a silent no-op
(each handler re-fetches the actor, matching the Python object passing).
`oracle` feeds the respawn draw reachable through GATHER. -/
def applyAction (w : World) (act : Action) (oracle : Nat) : World :=
  match dget w.agents act.actor with
  | none => w
  | some _ =>
    match act.kind with
    | ActionK.move dx dy => moveAgent w act.actor dx dy
    | ActionK.gather => gatherEnergy w act.actor oracle
    | ActionK.deposit _ => depositEnergy w act.actor
    | ActionK.report amount => recordDepositReport w act.actor amount
    | ActionK.request amount => registerHelpRequest w act.actor amount
    | ActionK.give target amount => giveEnergy w act.actor target amount

/-- The phase-1 fold body of `World.step`: auto-deposit the agent, then
ask the (abstracted) decision function for its action, stashing it. -/
def decideStep (policy : World → String → World × Action)
    (p : World × List Action) (agentId : String) : World × List Action :=
  let wA := autoDeposit p.1 agentId
  let chosen := policy wA agentId
  (chosen.1, p.2 ++ [chosen.2])

/-- The phase-2 fold body of `World.step`: apply the next stashed action,
feeding the respawn oracle the action's index. -/
def applyStep (orc : Nat → Nat) (p : World × Nat) (act : Action) : World × Nat :=
  (applyAction p.1 act (orc p.2), p.2 + 1)

/-- `World.step` with the per-agent decision function abstracted: phase 1
auto-deposits and asks `policy` for each snapshot agent's action (the
policy may mutate the world the way `Agent.choose` does through
`active_help_requests` / `has_active_request` / `cancel_help_request`);
phase 2 applies the stashed actions in the same snapshot order, feeding
the respawn oracle `orc i` to the i-th action; then the upkeep phase runs. -/
def stepWith (w : World) (policy : World → String → World × Action) (orc : Nat → Nat) : World :=
  let w0 := { w with tick := w.tick + 1 }
  let w1 := pruneHelpRequests w0
  let w2 := decayHelperSignals w1
  let ids := w2.agents.map (fun kv => kv.1)
  let decided := ids.foldl (decideStep policy) (w2, [])
  let applied := decided.2.foldl (applyStep orc) (decided.1, 0)
  let w5 := decayAgentEnergy applied.1
  let w6 := consumeReactor w5
  applyReactorConsequences w6

/-- A decision function that, like `Agent.choose`, may touch only the
help-request table of the world it is given. -/
def PolicyFrame (policy : World → String → World × Action) : Prop :=
  ∀ w agentId, (policy w agentId).1 = { w with help_requests := (policy w agentId).1.help_requests }

/-- The states reachable from a freshly constructed world by `add_agent`
calls with fresh agent ids and `step()` calls (the per-tick policy and all
random draws universally quantified). -/
inductive Reach : World → Prop where
  | init (cfg : Config) (draw : Int → Int → Bool) : Reach (worldInit cfg draw)
  | add (w : World) (a : Agent) (w' : World) : Reach w → dget w.agents a.id = none →
      addAgent w a = some w' → Reach w'
  | step (w : World) (policy : World → String → World × Action) (orc : Nat → Nat) :
      Reach w → PolicyFrame policy → Reach (stepWith w policy orc)

/-- The C1 invariant: every live agent occupies exactly its own cell in
the occupancy table, and every occupancy entry points back at a live agent
standing there. -/
def OccConsistent (w : World) : Prop :=
  (∀ k a, dget w.agents k = some a → dget w.occupancy a.position = some k) ∧
  (∀ p k, dget w.occupancy p = some k → ∃ a, dget w.agents k = some a ∧ a.position = p)

/-- The C2 invariant: the reactor's energy lies in `[0, capacity]`. -/
def ReactorInv (w : World) : Prop :=
  0 ≤ w.reactor.energy ∧ w.reactor.energy ≤ w.reactor.capacity

/-- The energy grid has `height` rows of `width` cells each (the shape
`World.__post_init__` builds). -/
def GridWellFormed (w : World) : Prop :=
  w.energy_grid.length = w.height.toNat ∧
  ∀ row ∈ w.energy_grid, row.length = w.width.toNat

/-- Both grids have `height` rows of `width` cells each. -/
def GridsWellFormed (w : World) : Prop :=
  GridWellFormed w ∧
  w.resource_grid.length = w.height.toNat ∧
  ∀ row ∈ w.resource_grid, row.length = w.width.toNat

/-- `World.available_moves`: the legal deltas among `CARDINAL_MOVES`
(staying put is always legal in bounds; other targets must be free), with
`[(0, 0)]` as the final fallback. -/
def CARDINAL_MOVES : List (Int × Int) := [(0, 0), (1, 0), (-1, 0), (0, 1), (0, -1)]

/-- See `CARDINAL_MOVES`. -/
def availableMoves (w : World) (a : Agent) : List (Int × Int) :=
  let x := a.position.1
  let y := a.position.2
  let moves := CARDINAL_MOVES.filter (fun m =>
    decide (inBoundsXY w.width w.height (x + m.1) (y + m.2)) &&
      (decide (m = ((0 : Int), (0 : Int))) || !(isOccupied w (x + m.1) (y + m.2))))
  if moves = [] then [(0, 0)] else moves

/-- `World.visible_energy`: the Manhattan disk of radius `radius` clipped
to the grid, with each cell's stored energy, in row-scan order of the
`dx`/`dy` loops. -/
def visibleEnergy (w : World) (center : Int × Int) (radius : Int) : List ((Int × Int) × Int) :=
  ((intRangeSym radius).map (fun dx =>
    (intRangeSym radius).filterMap (fun dy =>
      if |dx| + |dy| > radius then none
      else
        let nx := center.1 + dx
        let ny := center.2 + dy
        if inBoundsXY w.width w.height nx ny then
          some ((nx, ny), (w.energy_grid.getD ny.toNat []).getD nx.toNat 0)
        else none))).flatten

/-- Stable insertion of `x` into a sorted list: `x` goes in front of the
first element that is not strictly smaller, so that elements comparing
equal keep their original relative order (as Python's stable `sort`). -/
def insertByKey {α : Type} (lt : α → α → Bool) (x : α) : List α → List α
  | [] => [x]
  | y :: ys => if lt y x then y :: insertByKey lt x ys else x :: y :: ys

/-- Stable sort by the strict comparison `lt` (insertion sort, which
computes the same list as any stable sort by the same key). -/
def sortByKey {α : Type} (lt : α → α → Bool) : List α → List α
  | [] => []
  | x :: xs => insertByKey lt x (sortByKey lt xs)

/-- Strict lexicographic order on a pair of integer sort keys (Python's
tuple comparison). -/
def optKeyLt (p q : Int × Int) : Bool :=
  decide (p.1 < q.1 ∨ (p.1 = q.1 ∧ p.2 < q.2))

/-- `Agent.choose`'s greedy directional heuristic `best_move_towards`:
prefer the unit step on the dominant axis, then the other axis, else the
legal move minimising the resulting Manhattan distance (first minimum
wins, as in the Python scan). -/
def bestMoveTowards (moves : List (Int × Int)) (pos target : Int × Int) : Option (Int × Int) :=
  if target = pos then none
  else
    let dxT := target.1 - pos.1
    let dyT := target.2 - pos.2
    let sgn : Int → Int := fun v => if v > 0 then 1 else -1
    let axisX : List (Int × Int) := if dxT ≠ 0 then [(sgn dxT, 0)] else []
    let axisY : List (Int × Int) := if dyT ≠ 0 then [(0, sgn dyT)] else []
    let ordered := if |dxT| ≥ |dyT| then axisX ++ axisY else axisY ++ axisX
    match ordered.find? (fun c => moves.contains c) with
    | some c => some c
    | none =>
      let best := moves.foldl (fun acc m =>
        let score := |pos.1 + m.1 - target.1| + |pos.2 + m.2 - target.2|
        match acc with
        | none => some (m, score)
        | some (bm, bs) => if score < bs then some (m, score) else some (bm, bs)) none
      best.map (fun p => p.1)

/-- `max(1, world.agent_energy_decay)` as read by `Agent.choose`. -/
def decayOf (w : World) : Int := max 1 w.agent_energy_decay

/-- `max(decay, world.reactor_agent_reserve)` as read by `Agent.choose`. -/
def reserveOf (w : World) : Int := max (decayOf w) w.reactor_agent_reserve

/-- `max(decay, world.aid_request_threshold)` as read by `Agent.choose`. -/
def thresholdOf (w : World) : Int := max (decayOf w) w.aid_request_threshold

/-- `max(0, world.aid_give_buffer)` as read by `Agent.choose`. -/
def giveBufferOf (w : World) : Int := max 0 w.aid_give_buffer

/-- `max(1, world.aid_give_min_amount)` as read by `Agent.choose`. -/
def giveMinOf (w : World) : Int := max 1 w.aid_give_min_amount

/-- The agent's shareable energy in `Agent.choose`:
`max(0, energy - (reserve + give_buffer))`. -/
def shareableOf (w : World) (a : Agent) : Int :=
  max 0 (a.energy - (reserveOf w + giveBufferOf w))

/-- An entry of `request_options` in `Agent.choose`:
(manhattan distance, negated outstanding amount, Chebyshev distance,
outstanding amount, requester id, requester position). -/
abbrev ReqOption := Int × Int × Int × Int × String × (Int × Int)

instance : DecidableEq ReqOption := fun a b => instDecidableEqProd a b

/-- The `request_options` list built in step 1 of `Agent.choose`: one
entry per active request of another agent within vision, in the request
table's insertion order. -/
def requestOptions (a : Agent) (reqs : List (String × ((Int × Int) × Int))) : List ReqOption :=
  reqs.filterMap (fun kv =>
    if kv.1 = a.id then none
    else
      let dxR := kv.2.1.1 - a.position.1
      let dyR := kv.2.1.2 - a.position.2
      let man := |dxR| + |dyR|
      if man ≤ a.vision_radius then
        some (man, -kv.2.2, max |dxR| |dyR|, kv.2.2, kv.1, kv.2.1)
      else none)

/-- The comparison `Agent.choose` sorts `request_options` by:
`key=lambda entry: (entry[0], entry[1])`, i.e. only the Manhattan distance
and the negated outstanding amount (the Chebyshev component of the tuple
is not part of the key). -/
def reqOptLt (p q : ReqOption) : Bool := optKeyLt (p.1, p.2.1) (q.1, q.2.1)

/-- Step 1 (altruistic response) of `Agent.choose`: with spare energy and
active requests in sight, act on the head of the stably sorted option
list — GIVE `min(shareable, max(give_min, need))` when adjacent, else move
toward it; `none` means the step does not fire and `choose` falls
through. -/
def step1Choice (shareable giveMin : Int) (a : Agent) (moves : List (Int × Int))
    (reqs : List (String × ((Int × Int) × Int))) : Option Action :=
  if shareable ≥ giveMin ∧ reqs ≠ [] then
    match sortByKey reqOptLt (requestOptions a reqs) with
    | [] => none
    | (_, _, adjacency, need, targetId, targetPos) :: _ =>
      if adjacency ≤ 1 then
        let transfer := min shareable (max giveMin need)
        if transfer > 0 then some { actor := a.id, kind := ActionK.give targetId transfer }
        else none
      else
        match bestMoveTowards moves a.position targetPos with
        | some m => some { actor := a.id, kind := ActionK.move m.1 m.2 }
        | none => none
  else none

/-- `Agent.choose`: the full priority-ordered decision policy, returning
the (possibly pruned/cancel-mutated) world together with the chosen
action; `oracle` models the `random.choice` of the fallback move. -/
def chooseAction (w : World) (a : Agent) (oracle : Nat) : World × Action :=
  let x := a.position.1
  let y := a.position.2
  let moves := availableMoves w a
  let nonIdle := moves.filter (fun m => decide (m ≠ ((0 : Int), (0 : Int))))
  if a.pending_report > 0 then
    (w, { actor := a.id, kind := ActionK.report a.pending_report })
  else
    let cellE := cellEnergy w x y
    let decay := decayOf w
    let reserve := reserveOf w
    let requestThreshold := thresholdOf w
    let giveBuffer := giveBufferOf w
    let giveMin := giveMinOf w
    let ar := activeHelpRequests w
    let w1 := ar.1
    let activeReqs := ar.2
    let har := hasActiveRequest w1 a.id
    let w2 := har.1
    let alreadyRequested0 := har.2
    let visibleCells := visibleEnergy w2 a.position a.vision_radius
    let energySpots0 : List ((Int × Int) × Int × Int) := visibleCells.filterMap (fun pe =>
      if pe.2 > 0 then some (pe.1, pe.2, |pe.1.1 - x| + |pe.1.2 - y|) else none)
    let spotLt : ((Int × Int) × Int × Int) → ((Int × Int) × Int × Int) → Bool :=
      fun p q => optKeyLt (p.2.2, -p.2.1) (q.2.2, -q.2.1)
    let energySpots := sortByKey spotLt energySpots0
    let lowOnEnergy := a.energy ≤ requestThreshold
    let shareable := shareableOf w a
    let comfortable := reserve + giveBuffer + giveMin
    let needsEnergy := lowOnEnergy ∨ a.energy < comfortable
    let cw := if alreadyRequested0 = true ∧ ¬ lowOnEnergy then (cancelHelpRequest w2 a.id, false)
      else (w2, alreadyRequested0)
    let w3 := cw.1
    let alreadyRequested := cw.2
    match step1Choice shareable giveMin a moves activeReqs with
    | some act => (w3, act)
    | none =>
      let step2 : Option Action :=
        if needsEnergy then
          let reachable := energySpots.filter (fun e =>
            decide (e.2.2 = 0) || decide (a.energy > decay * e.2.2))
          let fromSpots := reachable.findSome? (fun (e : (Int × Int) × Int × Int) =>
            if e.2.2 = 0 ∧ cellE > 0 then some { actor := a.id, kind := ActionK.gather }
            else match bestMoveTowards moves a.position e.1 with
              | some m => some { actor := a.id, kind := ActionK.move m.1 m.2 }
              | none => (none : Option Action))
          match fromSpots with
          | some act => some act
          | none =>
            let requestAmount := max 0 (requestThreshold - a.energy)
            if requestAmount > 0 ∧ alreadyRequested = false then
              some { actor := a.id, kind := ActionK.request requestAmount }
            else
              let helpers := w3.agents.filterMap (fun kv =>
                if kv.1 = a.id then none
                else
                  let avail := kv.2.energy - (reserve + giveBuffer)
                  if avail < giveMin then none
                  else
                    let dxH := kv.2.position.1 - x
                    let dyH := kv.2.position.2 - y
                    let man := |dxH| + |dyH|
                    if man ≤ a.vision_radius then
                      some (man, max |dxH| |dyH|, kv.1, kv.2.position)
                    else none)
              match sortByKey (fun p q => optKeyLt (p.1, p.2.1) (q.1, q.2.1)) helpers with
              | [] => none
              | (_, cheb, _, helperPos) :: _ =>
                if cheb > 1 then
                  match bestMoveTowards moves a.position helperPos with
                  | some m => some { actor := a.id, kind := ActionK.move m.1 m.2 }
                  | none => none
                else none
        else none
      match step2 with
      | some act => (w3, act)
      | none =>
        let excess := max 0 (a.energy - reserve)
        let step3 : Option Action :=
          if ¬ (w3.reactor.energy ≥ w3.reactor.capacity) ∧ excess > 0 then
            if a.position = w3.reactor.position then
              some { actor := a.id, kind := ActionK.deposit excess }
            else
              match bestMoveTowards moves a.position w3.reactor.position with
              | some m => some { actor := a.id, kind := ActionK.move m.1 m.2 }
              | none => none
          else none
        match step3 with
        | some act => (w3, act)
        | none =>
          if cellE > 0 then (w3, { actor := a.id, kind := ActionK.gather })
          else
            let fallback := if nonIdle ≠ [] then nonIdle
              else if moves ≠ [] then moves else [(0, 0)]
            let m := fallback.getD (oracle % fallback.length) (0, 0)
            (w3, { actor := a.id, kind := ActionK.move m.1 m.2 })

/-- A small 4×4 test world (all cells empty, reactor at (3, 3) holding
200 of 1000, the default aid knobs of `world.py`) used as the base of the
concrete instances below. -/
def baseWorld : World :=
  { width := 4, height := 4, tick := 0, agents := [],
    max_energy := 100, agent_energy_decay := 1,
    reactor_agent_reserve := 80, reactor_dwindle_rate := 1, reactor_consumption_rate := 1,
    aid_request_threshold := 40, aid_give_buffer := 10, aid_request_lifetime := -1,
    aid_give_min_amount := 5, help_signal_duration := -1,
    energy_grid := [[0, 0, 0, 0], [0, 0, 0, 0], [0, 0, 0, 0], [0, 0, 0, 0]],
    resource_grid := [[false, false, false, false], [false, false, false, false],
                      [false, false, false, false], [false, false, false, false]],
    occupancy := [],
    reactor := { position := (3, 3), capacity := 1000, energy := 200 },
    deposit_reports := [], help_requests := [], helper_signals := [] }

/-- A donor with plenty of spare energy, used in the C7 instance. -/
def agentD7 : Agent :=
  { id := "D", name := "D", position := (0, 0), energy := 200,
    max_capacity := none, vision_radius := 3, pending_report := 0 }

/-- A requester at (2, 0) (Manhattan 2, Chebyshev 2 from the donor). -/
def agentA7 : Agent :=
  { id := "A", name := "A", position := (2, 0), energy := 5,
    max_capacity := none, vision_radius := 3, pending_report := 0 }

/-- A requester at (1, 1) (Manhattan 2, Chebyshev 1 from the donor). -/
def agentB7 : Agent :=
  { id := "B", name := "B", position := (1, 1), energy := 5,
    max_capacity := none, vision_radius := 3, pending_report := 0 }

/-- C7 instance: two active requests tie on Manhattan distance (2) and
outstanding amount (20); the Chebyshev-1 requester "B" is adjacent while
"A" is not, and "A" precedes "B" in the request table. -/
def w7 : World :=
  { baseWorld with
      agents := [("D", agentD7), ("A", agentA7), ("B", agentB7)],
      occupancy := [((0, 0), "D"), ((2, 0), "A"), ((1, 1), "B")],
      help_requests := [("A", ((2, 0), 20, 0)), ("B", ((1, 1), 20, 0))] }

/-- C8 instance: a helper signal recorded at tick 5, queried later, with
`help_signal_duration = -1` (expiry disabled). -/
def w8 : World :=
  { baseWorld with tick := 6, helper_signals := [("A", 5)] }

/-- C4 counterexample donor: energy 92 leaves only 2 above
reserve 80 + buffer 10. -/
def donor4 : Agent :=
  { id := "D", name := "D", position := (0, 0), energy := 92,
    max_capacity := none, vision_radius := 100, pending_report := 0 }

/-- C4 counterexample recipient: energy 1 with an outstanding request
for 35 (its shortfall grew after the request was made, as energy decay
does not update requests). -/
def recip4 : Agent :=
  { id := "R", name := "R", position := (1, 0), energy := 1,
    max_capacity := none, vision_radius := 100, pending_report := 0 }

/-- C4 counterexample world. -/
def w4c : World :=
  { baseWorld with
      agents := [("D", donor4), ("R", recip4)],
      occupancy := [((0, 0), "D"), ((1, 0), "R")],
      help_requests := [("R", ((1, 0), 35, 0))] }

/-- The spec's C4 scenario donor: energy 200, reserve 80 / buffer 10 /
minGift 5 (the `baseWorld` knobs). -/
def donor4s : Agent :=
  { id := "D", name := "D", position := (0, 0), energy := 200,
    max_capacity := none, vision_radius := 100, pending_report := 0 }

/-- The spec's C4 scenario recipient: energy 5, a live request for 20. -/
def recip4s : Agent :=
  { id := "R", name := "R", position := (1, 0), energy := 5,
    max_capacity := none, vision_radius := 100, pending_report := 0 }

/-- The spec's C4 scenario world. -/
def w4s : World :=
  { baseWorld with
      agents := [("D", donor4s), ("R", recip4s)],
      occupancy := [((0, 0), "D"), ((1, 0), "R")],
      help_requests := [("R", ((1, 0), 20, 0))] }

/-- C5 instance gatherer standing on a resource cell. -/
def agentG5 : Agent :=
  { id := "G", name := "G", position := (1, 1), energy := 30,
    max_capacity := none, vision_radius := 100, pending_report := 0 }

/-- C5 instance world: one resource at (1, 1) holding 100. -/
def w5 : World :=
  { baseWorld with
      agents := [("G", agentG5)],
      occupancy := [((1, 1), "G")],
      energy_grid := [[0, 0, 0, 0], [0, 100, 0, 0], [0, 0, 0, 0], [0, 0, 0, 0]],
      resource_grid := [[false, false, false, false], [false, true, false, false],
                        [false, false, false, false], [false, false, false, false]] }

/-- C3 instance agent with a pending-report balance of 7. -/
def agentP3 : Agent :=
  { id := "P", name := "P", position := (0, 0), energy := 50,
    max_capacity := none, vision_radius := 100, pending_report := 7 }

/-- C3 instance world. -/
def w3r : World :=
  { baseWorld with agents := [("P", agentP3)], occupancy := [((0, 0), "P")] }

/-- A concrete reactor for the C6 witness. -/
def r6 : Reactor := { position := (0, 0), capacity := 10, energy := 4 }

/-- A small configuration for the C1/C2 witnesses. -/
def cfgA : Config :=
  { width := 2, height := 2, max_energy := 100, agent_energy_decay := 1,
    reactor_capacity := 10, reactor_initial_energy := 5, reactor_agent_reserve := 8,
    reactor_dwindle_rate := 1, reactor_consumption_rate := 1, aid_request_threshold := 4,
    aid_give_buffer := 1, aid_request_lifetime := -1, aid_give_min_amount := 1,
    help_signal_duration := -1 }

/-- The all-false resource draw. -/
def drawNone : Int → Int → Bool := fun _ _ => false

/-- An agent to add in the C9 witness, deliberately out of bounds. -/
def agent9 : Agent :=
  { id := "N", name := "N", position := (9, -2), energy := 30,
    max_capacity := none, vision_radius := 100, pending_report := 0 }

/-- C9 witness world: one agent already sitting on the cell the new
agent's position clamps to. -/
def w9 : World :=
  { baseWorld with
      agents := [("O", { id := "O", name := "O", position := (3, 0), energy := 30,
                         max_capacity := none, vision_radius := 100, pending_report := 0 })],
      occupancy := [((3, 0), "O")] }

/-! ## Association-list (Python dict) lemmas -/

theorem dget_nil {K V : Type} [DecidableEq K] (k : K) : dget ([] : List (K × V)) k = none := rfl

theorem dget_dset_self {K V : Type} [DecidableEq K] (l : List (K × V)) (k : K) (v : V) :
    dget (dset l k v) k = some v := by
  induction l with
  | nil => simp [dget, dset]
  | cons kv rest ih =>
    by_cases h : kv.1 = k
    · simp [dset, h, dget]
    · simp [dset, h, dget, ih]

theorem dget_dset_ne {K V : Type} [DecidableEq K] (l : List (K × V)) (k k' : K) (v : V)
    (hne : k' ≠ k) : dget (dset l k v) k' = dget l k' := by
  induction l with
  | nil => simp [dget, dset, Ne.symm hne]
  | cons kv rest ih =>
    by_cases h : kv.1 = k
    · simp [dset, h, dget, Ne.symm hne]
    · simp [dset, h, dget, ih]

theorem dget_dpop_self {K V : Type} [DecidableEq K] (l : List (K × V)) (k : K) :
    dget (dpop l k) k = none := by
  induction l with
  | nil => simp [dget, dpop]
  | cons kv rest ih =>
    by_cases h : kv.1 = k
    · simp [dpop, h, ih]
    · simp [dpop, h, dget, ih]

theorem dget_dpop_ne {K V : Type} [DecidableEq K] (l : List (K × V)) (k k' : K)
    (hne : k' ≠ k) : dget (dpop l k) k' = dget l k' := by
  induction l with
  | nil => simp [dpop]
  | cons kv rest ih =>
    by_cases h : kv.1 = k
    · rw [dpop]; rw [if_pos h, ih, dget, if_neg]; rw [h]; exact Ne.symm hne
    · rw [dpop]; rw [if_neg h]; rw [dget, dget]; split <;> simp [ih]

theorem dget_mapVal {K V : Type} [DecidableEq K] (f : V → V) (l : List (K × V)) (k : K) :
    dget (l.map (fun kv => (kv.1, f kv.2))) k = Option.map f (dget l k) := by
  induction l with
  | nil => simp [dget]
  | cons kv rest ih =>
    by_cases h : kv.1 = k
    · simp [dget, h]
    · simp [dget, h, ih]

/-! ## Small list lemmas -/

theorem getLast?_cap {α : Type} (l : List α) (e : α) :
    (if (l ++ [e]).length > 50 then (l ++ [e]).drop 1 else l ++ [e]).getLast? = some e := by
  split
  · rename_i h
    match l with
    | [] => simp at h
    | x :: xs => simp [List.getLast?_concat]
  · simp [List.getLast?_concat]

theorem mem_intRange {n x : Int} : x ∈ intRange n ↔ 0 ≤ x ∧ x < n := by
  simp only [intRange, List.mem_map, List.mem_range]
  constructor
  · rintro ⟨i, hi, rfl⟩
    omega
  · rintro ⟨h0, hn⟩
    exact ⟨x.toNat, by omega, by omega⟩

theorem mem_intRangeSym {r x : Int} : x ∈ intRangeSym r ↔ -r ≤ x ∧ x ≤ r := by
  simp only [intRangeSym, List.mem_map, List.mem_range]
  constructor
  · rintro ⟨i, hi, rfl⟩
    omega
  · rintro ⟨h0, hn⟩
    exact ⟨(x + r).toNat, by omega, by omega⟩

theorem mem_scanCells {w : World} {p : Int × Int} :
    p ∈ scanCells w ↔ inBoundsXY w.width w.height p.1 p.2 := by
  simp only [scanCells, List.mem_flatten, List.mem_map, inBoundsXY]
  constructor
  · rintro ⟨row, ⟨ny, hny, rfl⟩, hp⟩
    obtain ⟨nx, hnx, rfl⟩ := List.mem_map.mp hp
    have h1 := mem_intRange.mp hny
    have h2 := mem_intRange.mp hnx
    exact ⟨h2.1, h2.2, h1.1, h1.2⟩
  · rintro ⟨hx0, hxw, hy0, hyh⟩
    refine ⟨(intRange w.width).map (fun nx => (nx, p.2)), ⟨p.2, mem_intRange.mpr ⟨hy0, hyh⟩, rfl⟩, ?_⟩
    exact List.mem_map.mpr ⟨p.1, mem_intRange.mpr ⟨hx0, hxw⟩, rfl⟩

/-! ## C6: reactor deposit / draw -/

/-- C6: `Reactor.deposit` returns 0 and leaves the energy unchanged when
the amount is non-positive or the reactor is full, else accepts exactly
`min(amount, capacity - energy)` without overflowing above the capacity;
`Reactor.draw` returns 0 when the amount is non-positive (in particular on
an empty reactor), else removes exactly `min(amount, energy)` without
underflowing below zero. -/
theorem c6_reactor_ops (r : Reactor) (amount : Int) :
    ((amount ≤ 0 ∨ r.energy ≥ r.capacity) → Reactor.deposit r amount = (0, r)) ∧
    (amount > 0 → r.energy < r.capacity →
      Reactor.deposit r amount =
        (min amount (r.capacity - r.energy),
         { r with energy := r.energy + min amount (r.capacity - r.energy) }) ∧
      (Reactor.deposit r amount).2.energy ≤ r.capacity ∧
      r.energy ≤ (Reactor.deposit r amount).2.energy) ∧
    (amount ≤ 0 → Reactor.draw r amount = (0, r)) ∧
    (amount > 0 →
      Reactor.draw r amount =
        (min amount r.energy, { r with energy := r.energy - min amount r.energy }) ∧
      (0 ≤ r.energy → 0 ≤ (Reactor.draw r amount).2.energy)) ∧
    (r.energy = 0 → (Reactor.draw r amount).1 = 0) := by
  refine ⟨?_, ?_, ?_, ?_, ?_⟩
  · intro h
    rw [Reactor.deposit, if_pos (by omega)]
  · intro h1 h2
    rw [Reactor.deposit, if_neg (by omega)]
    refine ⟨rfl, by dsimp only; omega, by dsimp only; omega⟩
  · intro h
    rw [Reactor.draw, if_pos h]
  · intro h
    rw [Reactor.draw, if_neg (by omega)]
    exact ⟨rfl, fun h0 => by dsimp only; omega⟩
  · intro h0
    rw [Reactor.draw]
    split
    · rfl
    · dsimp only; omega

/-- The C6 theorem instantiated at a reactor holding 4 of 10: a deposit of
100 accepts 6 (filling it) and a draw of 100 drains the 4 on hand. -/
theorem c6_witness :
    ((100 : Int) > 0 ∧ r6.energy < r6.capacity) ∧
    Reactor.deposit r6 100 =
      (min 100 (r6.capacity - r6.energy),
       { r6 with energy := r6.energy + min 100 (r6.capacity - r6.energy) }) ∧
    Reactor.draw r6 100 =
      (min 100 r6.energy, { r6 with energy := r6.energy - min 100 r6.energy }) :=
  ⟨⟨by decide, by decide⟩, ((c6_reactor_ops r6 100).2.1 (by decide) (by decide)).1,
    ((c6_reactor_ops r6 100).2.2.2.1 (by decide)).1⟩

/-! ## C10: cell_energy is total -/

/-- C10: `cell_energy` is total: out-of-bounds coordinates yield 0, and on
in-bounds coordinates both list accesses succeed (so the Python indexing
cannot raise) and yield the stored value. -/
theorem c10_cell_energy_total (w : World) (hw : GridWellFormed w) (x y : Int) :
    (¬ inBoundsXY w.width w.height x y → cellEnergy w x y = 0) ∧
    (inBoundsXY w.width w.height x y →
      ∃ row, w.energy_grid.get? y.toNat = some row ∧
        row.get? x.toNat = some (cellEnergy w x y)) := by
  constructor
  · intro h
    rw [cellEnergy, if_neg h]
  · intro h
    obtain ⟨hx0, hxw, hy0, hyh⟩ := h
    obtain ⟨hlen, hrow⟩ := hw
    have hy : y.toNat < w.energy_grid.length := by omega
    have hmem : w.energy_grid.get ⟨y.toNat, hy⟩ ∈ w.energy_grid := List.get_mem _ _ _
    have hx : x.toNat < (w.energy_grid.get ⟨y.toNat, hy⟩).length := by
      rw [hrow _ hmem]; omega
    have hgd : w.energy_grid.getD y.toNat [] = w.energy_grid.get ⟨y.toNat, hy⟩ := by
      rw [List.getD_eq_get?, List.get?_eq_get hy]
      rfl
    have hcell : cellEnergy w x y = (w.energy_grid.get ⟨y.toNat, hy⟩).get ⟨x.toNat, hx⟩ := by
      rw [cellEnergy, if_pos ⟨hx0, hxw, hy0, hyh⟩, hgd, List.getD_eq_get?,
        List.get?_eq_get hx]
      rfl
    refine ⟨w.energy_grid.get ⟨y.toNat, hy⟩, by rw [List.get?_eq_get hy], ?_⟩
    rw [List.get?_eq_get hx, hcell]

/-- The C10 theorem instantiated at the 4×4 test world: (2, 1) is in
bounds and (5, -1) is out of bounds. -/
theorem c10_witness :
    GridWellFormed baseWorld ∧
    (¬ inBoundsXY baseWorld.width baseWorld.height 5 (-1) → cellEnergy baseWorld 5 (-1) = 0) ∧
    (inBoundsXY baseWorld.width baseWorld.height 5 (-1) →
      ∃ row, baseWorld.energy_grid.get? (-1 : Int).toNat = some row ∧
        row.get? (5 : Int).toNat = some (cellEnergy baseWorld 5 (-1))) :=
  ⟨by constructor <;> decide, c10_cell_energy_total baseWorld (by constructor <;> decide) 5 (-1)⟩

/-! ## C8: helper signals with expiry disabled -/

/-- C8 (code bug evidence): with `help_signal_duration = -1` the decay
pass keeps the signal forever, yet `is_recent_helper` compares against
`max(0, -1) = 0`, so a helper marked at tick 5 is reported at tick 5 but
no longer at tick 6 — the "never expires" reading of a negative duration
is contradicted by the query. -/
theorem c8_helper_signal_eval :
    w8.help_signal_duration < 0 ∧
    dget w8.helper_signals "A" = some 5 ∧
    decayHelperSignals w8 = w8 ∧
    isRecentHelper { w8 with tick := 5 } "A" = true ∧
    isRecentHelper w8 "A" = false := by
  refine ⟨by decide, by decide, by decide, by decide, by decide⟩

/-! ## C3: deposit report round trip -/

/-- C3: with a pending-report balance `A > 0`, REPORT claiming exactly `A`
appends a ledger entry `(tick, id, A, A, lie=false)` and zeroes the
balance; claiming `c > A` appends `(tick, id, A, c, lie=true)` (crediting
only `A`); and REPORT is a no-op when the balance is zero and the claimed
amount is non-positive. -/
theorem c3_report_roundtrip (w : World) (agentId : String) (a : Agent)
    (ha : dget w.agents agentId = some a) :
    (a.pending_report > 0 →
      (recordDepositReport w agentId a.pending_report).deposit_reports.getLast? =
        some (w.tick, a.id, a.pending_report, a.pending_report, false) ∧
      dget (recordDepositReport w agentId a.pending_report).agents agentId =
        some { a with pending_report := 0 }) ∧
    (∀ claimed, a.pending_report > 0 → claimed > a.pending_report →
      (recordDepositReport w agentId claimed).deposit_reports.getLast? =
        some (w.tick, a.id, a.pending_report, claimed, true) ∧
      dget (recordDepositReport w agentId claimed).agents agentId =
        some { a with pending_report := 0 }) ∧
    (∀ amount, a.pending_report = 0 → amount ≤ 0 → recordDepositReport w agentId amount = w) := by
  refine ⟨?_, ?_, ?_⟩
  · intro hp
    have h1 : max 0 a.pending_report = a.pending_report := by omega
    have h2 : min a.pending_report a.pending_report = a.pending_report := by omega
    have h3 : ¬ (a.pending_report ≤ 0 ∧ a.pending_report ≤ 0) := by omega
    have hlie : (decide (a.pending_report ≠ a.pending_report)) = false :=
      decide_eq_false (by omega)
    simp only [recordDepositReport, ha, h1]
    rw [if_neg h3, if_pos hp, if_pos hp, h2, hlie]
    constructor
    · exact getLast?_cap _ _
    · rw [dget_dset_self]
      congr 2
      omega
  · intro claimed hp hc
    have h1 : max 0 claimed = claimed := by omega
    have h3 : ¬ (a.pending_report ≤ 0 ∧ claimed ≤ 0) := by omega
    have h2 : min a.pending_report claimed = a.pending_report := by omega
    have hlie : (decide (claimed ≠ a.pending_report)) = true :=
      decide_eq_true (by omega)
    simp only [recordDepositReport, ha, h1]
    rw [if_neg h3, if_pos hp, if_pos hp, h2, hlie]
    constructor
    · exact getLast?_cap _ _
    · rw [dget_dset_self]
      congr 2
      omega
  · intro amount hp hamt
    have h3 : a.pending_report ≤ 0 ∧ max 0 amount ≤ 0 := by omega
    simp only [recordDepositReport, ha]
    rw [if_pos h3]

/-! ## C9: add_agent error behaviour -/

/-- C9: `add_agent` fails (raises, modelled by `none`) exactly when every
cell of the grid is occupied; otherwise it succeeds, placing the agent on
a free in-bounds cell — the clamped position itself, or the first free
cell in scan order — and registering it in both `agents` and `occupancy`. -/
theorem c9_add_agent (w : World) (a : Agent) (hw : 0 < w.width) (hh : 0 < w.height) :
    (addAgent w a = none ↔ ∀ p ∈ scanCells w, isOccupied w p.1 p.2 = true) ∧
    (∀ w', addAgent w a = some w' →
      ∃ p, isOccupied w p.1 p.2 = false ∧ inBoundsXY w.width w.height p.1 p.2 ∧
        dget w'.occupancy p = some a.id ∧
        dget w'.agents a.id = some { a with position := p } ∧
        (p = clampPos w a.position.1 a.position.2 ∨
          (scanCells w).find? (fun c => !(isOccupied w c.1 c.2)) = some p)) := by
  have hb0 : inBoundsXY w.width w.height (clampPos w a.position.1 a.position.2).1
      (clampPos w a.position.1 a.position.2).2 := by
    unfold clampPos inBoundsXY
    dsimp only
    refine ⟨?_, ?_, ?_, ?_⟩ <;> omega
  constructor
  · constructor
    · intro hnone p hp
      rw [addAgent] at hnone
      rcases hef : ensureFreePosition w (clampPos w a.position.1 a.position.2) with _ | q
      · rw [ensureFreePosition] at hef
        by_cases hocc : (occupantAt w (clampPos w a.position.1 a.position.2)).isSome
        · rw [if_pos hocc] at hef
          have := List.find?_eq_none.mp hef p hp
          simpa using this
        · rw [if_neg hocc] at hef
          exact absurd hef (by simp)
      · rw [hef] at hnone
        simp at hnone
    · intro hall
      rw [addAgent]
      have hocc : (occupantAt w (clampPos w a.position.1 a.position.2)).isSome = true := by
        have hmem := mem_scanCells.mpr hb0
        have := hall _ hmem
        rw [isOccupied] at this
        simpa using this
      rw [ensureFreePosition, if_pos hocc]
      have hfn : (scanCells w).find? (fun c => !(isOccupied w c.1 c.2)) = none := by
        rw [List.find?_eq_none]
        intro p hp
        simp [hall p hp]
      rw [hfn]
  · intro w' hsome
    rw [addAgent] at hsome
    rcases hef : ensureFreePosition w (clampPos w a.position.1 a.position.2) with _ | p
    · rw [hef] at hsome
      simp at hsome
    · rw [hef] at hsome
      simp only [Option.some.injEq] at hsome
      subst hsome
      rw [ensureFreePosition] at hef
      by_cases hocc : (occupantAt w (clampPos w a.position.1 a.position.2)).isSome
      · rw [if_pos hocc] at hef
        have hpred := List.find?_some hef
        have hmem := List.mem_of_find?_eq_some hef
        refine ⟨p, by simpa using hpred, mem_scanCells.mp hmem, ?_, ?_, Or.inr hef⟩
        · exact dget_dset_self _ _ _
        · exact dget_dset_self _ _ _
      · rw [if_neg hocc] at hef
        simp only [Option.some.injEq] at hef
        subst hef
        refine ⟨_, ?_, hb0, ?_, ?_, Or.inl rfl⟩
        · rw [isOccupied]
          simpa using hocc
        · exact dget_dset_self _ _ _
        · exact dget_dset_self _ _ _

/-- The C9 theorem instantiated at a 4×4 world with one occupied cell and
a new agent whose out-of-bounds position (9, -2) clamps onto it: adding
does not fail. -/
theorem c9_witness :
    (0 : Int) < w9.width ∧ (0 : Int) < w9.height ∧
    (addAgent w9 agent9 = none ↔ ∀ p ∈ scanCells w9, isOccupied w9 p.1 p.2 = true) :=
  ⟨by decide, by decide, (c9_add_agent w9 agent9 (by decide) (by decide)).1⟩

/-! ## Grid read/write lemmas -/

theorem getD_set_self {α : Type} : ∀ (l : List α) (i : Nat) (v d : α), i < l.length →
    (l.set i v).getD i d = v
  | [], _, _, _, h => absurd h (by simp)
  | _ :: _, 0, _, _, _ => by simp
  | _ :: l, i + 1, v, d, h => by
    simp only [List.set_cons_succ, List.getD_cons_succ]
    exact getD_set_self l i v d (by simpa using h)

theorem getD_set_ne {α : Type} : ∀ (l : List α) (i j : Nat) (v d : α), i ≠ j →
    (l.set i v).getD j d = l.getD j d
  | [], _, _, _, _, _ => by simp
  | _ :: _, 0, 0, _, _, h => absurd rfl h
  | _ :: _, 0, _ + 1, _, _, _ => by simp
  | _ :: _, _ + 1, 0, _, _, _ => by simp
  | _ :: l, i + 1, j + 1, v, d, h => by
    simp only [List.set_cons_succ, List.getD_cons_succ]
    exact getD_set_ne l i j v d (by omega)

theorem getD_mem {α : Type} (l : List α) (n : Nat) (d : α) (h : n < l.length) :
    l.getD n d ∈ l := by
  rw [List.getD_eq_get?, List.get?_eq_get h]
  exact List.get_mem _ _ _

theorem getD_row {α : Type} (g : List (List α)) (n : Nat) (h : n < g.length) :
    g.getD n [] = g.get ⟨n, h⟩ := by
  rw [List.getD_eq_get?, List.get?_eq_get h]
  rfl

theorem gridSet_shape {α : Type} {W H : Nat} (g : List (List α)) (x y : Int) (v : α)
    (hlen : g.length = H) (hrow : ∀ row ∈ g, row.length = W)
    (hy : 0 ≤ y) (hyH : y.toNat < H) :
    (gridSet g x y v).length = H ∧ ∀ row ∈ gridSet g x y v, row.length = W := by
  constructor
  · rw [gridSet, List.length_set, hlen]
  · intro row hmem
    rw [gridSet] at hmem
    rcases List.mem_or_eq_of_mem_set hmem with h | h
    · exact hrow _ h
    · subst h
      rw [List.length_set, getD_row g y.toNat (by omega)]
      exact hrow _ (List.get_mem _ _ _)

theorem gridRead_gridSet {α : Type} {W H : Nat} (g : List (List α)) (x y u v : Int)
    (val d : α) (hlen : g.length = H) (hrow : ∀ row ∈ g, row.length = W)
    (hx : 0 ≤ x) (hxW : x.toNat < W) (hy : 0 ≤ y) (hyH : y.toNat < H)
    (hu : 0 ≤ u) (huW : u.toNat < W) (hv : 0 ≤ v) (hvH : v.toNat < H) :
    ((gridSet g x y val).getD v.toNat []).getD u.toNat d =
      if u = x ∧ v = y then val else (g.getD v.toNat []).getD u.toNat d := by
  have hyg : y.toNat < g.length := by omega
  have hrowlen : (g.getD y.toNat []).length = W := by
    rw [getD_row g y.toNat hyg]
    exact hrow _ (List.get_mem _ _ _)
  by_cases hvy : v = y
  · subst hvy
    rw [gridSet, getD_set_self _ _ _ _ (by omega)]
    by_cases hux : u = x
    · subst hux
      rw [if_pos ⟨rfl, rfl⟩, getD_set_self _ _ _ _ (by omega)]
    · rw [if_neg (by tauto), getD_set_ne _ _ _ _ _ (by omega)]
  · rw [if_neg (by tauto), gridSet, getD_set_ne _ _ _ _ _ (by omega)]

/-! ## Frame lemmas: operations that only touch one table -/

theorem maybeClear_hr_only (w : World) (a : Agent) :
    maybeClearHelpRequest w a =
      { w with help_requests := (maybeClearHelpRequest w a).help_requests } := by
  unfold maybeClearHelpRequest
  split
  · rfl
  · dsimp
    split
    · rfl
    · split
      · rfl
      · rfl

theorem respawnCandidates_congr (w w' : World) (p : Int × Int)
    (hW : w'.width = w.width) (hH : w'.height = w.height)
    (hR : w'.resource_grid = w.resource_grid) :
    respawnCandidates w' p = respawnCandidates w p := by
  unfold respawnCandidates scanCells resourceAt
  rw [hW, hH, hR]

/-- `_respawn_resource` picks some target — a candidate when any exists,
else the depleted cell — and refreshes exactly that cell on both grids. -/
theorem respawnResource_spec (w : World) (p : Int × Int) (oracle : Nat) :
    ∃ target : Int × Int,
      (if (respawnCandidates w p).isEmpty then target = p
       else target ∈ respawnCandidates w p) ∧
      respawnResource w p oracle =
        { w with resource_grid := gridSet w.resource_grid target.1 target.2 true,
                 energy_grid := gridSet w.energy_grid target.1 target.2 w.max_energy } := by
  refine ⟨if (respawnCandidates w p).isEmpty then p
    else (respawnCandidates w p).getD (oracle % (respawnCandidates w p).length) p, ?_, rfl⟩
  by_cases h : (respawnCandidates w p).isEmpty
  · simp [h]
  · simp only [if_neg h]
    apply getD_mem
    apply Nat.mod_lt
    rcases hc : respawnCandidates w p with _ | ⟨c, cs⟩
    · rw [hc] at h
      simp at h
    · simp

/-! ## C5: gather and respawn -/

/-- C5: GATHER on a cell holding `E > 0` credits the agent exactly `E`,
zeroes the gathered cell and clears its flag, and makes exactly one cell
a resource holding `max_energy`: one drawn from the candidate list (cells
without a resource, the depleted one excluded) when it is non-empty, else
the depleted cell itself; GATHER is a no-op when the cell's energy is 0. -/
theorem c5_gather (w : World) (agentId : String) (a : Agent) (oracle : Nat)
    (ha : dget w.agents agentId = some a)
    (hwf : GridsWellFormed w)
    (hb : inBoundsXY w.width w.height a.position.1 a.position.2) :
    (cellEnergy w a.position.1 a.position.2 = 0 → gatherEnergy w agentId oracle = w) ∧
    (cellEnergy w a.position.1 a.position.2 > 0 →
      ∃ target : Int × Int,
        (if (respawnCandidates (depletedView w a.position) a.position).isEmpty
          then target = a.position
          else target ∈ respawnCandidates (depletedView w a.position) a.position) ∧
        inBoundsXY w.width w.height target.1 target.2 ∧
        (target ≠ a.position → resourceAt w target.1 target.2 = false) ∧
        dget (gatherEnergy w agentId oracle).agents agentId =
          some { a with energy := a.energy + cellEnergy w a.position.1 a.position.2 } ∧
        (∀ u v, inBoundsXY w.width w.height u v →
          cellEnergy (gatherEnergy w agentId oracle) u v =
            (if (u, v) = target then w.max_energy
             else if (u, v) = a.position then 0
             else cellEnergy w u v)) ∧
        (∀ u v, inBoundsXY w.width w.height u v →
          resourceAt (gatherEnergy w agentId oracle) u v =
            (if (u, v) = target then true
             else if (u, v) = a.position then false
             else resourceAt w u v))) := by
  obtain ⟨⟨heL, heR⟩, hrL, hrR⟩ := hwf
  obtain ⟨hx0, hxw, hy0, hyh⟩ := hb
  constructor
  · intro h0
    simp only [gatherEnergy, ha]
    rw [if_pos (show cellEnergy w a.position.1 a.position.2 ≤ 0 by omega)]
  · intro hE
    have hneg : ¬ cellEnergy w a.position.1 a.position.2 ≤ 0 := by omega
    set p : Int × Int := a.position with hp
    set aN : Agent := { a with energy := a.energy + cellEnergy w p.1 p.2 } with haN
    set w2 : World := { w with
      energy_grid := gridSet w.energy_grid p.1 p.2 0,
      agents := dset w.agents agentId aN } with hw2
    set wM : World := maybeClearHelpRequest w2 aN with hwM
    have hMfr : wM = { w2 with help_requests := wM.help_requests } := maybeClear_hr_only w2 aN
    have hgE : gatherEnergy w agentId oracle = respawnResource (depletedView wM p) p oracle := by
      simp only [gatherEnergy, ha]
      rw [if_neg hneg]
      rfl
    have hcongr : respawnCandidates (depletedView wM p) p =
        respawnCandidates (depletedView w p) p := by
      apply respawnCandidates_congr
      · rw [hMfr]; rfl
      · rw [hMfr]; rfl
      · show gridSet wM.resource_grid p.1 p.2 false = gridSet w.resource_grid p.1 p.2 false
        rw [hMfr]
    obtain ⟨target, htgt, heq⟩ := respawnResource_spec (depletedView wM p) p oracle
    rw [hcongr] at htgt
    have heqC : gatherEnergy w agentId oracle = { w with
        energy_grid := gridSet (gridSet (gridSet w.energy_grid p.1 p.2 0) p.1 p.2 0)
          target.1 target.2 w.max_energy,
        resource_grid := gridSet (gridSet w.resource_grid p.1 p.2 false) target.1 target.2 true,
        agents := dset w.agents agentId aN,
        help_requests := wM.help_requests } := by
      rw [hgE, heq, hMfr]
      rfl
    have hsE1 := gridSet_shape w.energy_grid p.1 p.2 0 heL heR hy0 (by omega)
    have hsE2 := gridSet_shape (gridSet w.energy_grid p.1 p.2 0) p.1 p.2 0 hsE1.1 hsE1.2
      hy0 (by omega)
    have hsR1 := gridSet_shape w.resource_grid p.1 p.2 false hrL hrR hy0 (by omega)
    have htb : inBoundsXY w.width w.height target.1 target.2 := by
      by_cases hemp : (respawnCandidates (depletedView w p) p).isEmpty
      · rw [if_pos hemp] at htgt
        rw [htgt]
        exact ⟨hx0, hxw, hy0, hyh⟩
      · rw [if_neg hemp] at htgt
        have hmem := List.mem_of_mem_filter htgt
        exact mem_scanCells.mp hmem
    obtain ⟨htx0, htxw, hty0, htyh⟩ := htb
    refine ⟨target, htgt, ⟨htx0, htxw, hty0, htyh⟩, ?_, ?_, ?_, ?_⟩
    · -- a candidate target carried no resource in the original world
      intro hne
      by_cases hemp : (respawnCandidates (depletedView w p) p).isEmpty
      · rw [if_pos hemp] at htgt
        exact absurd htgt hne
      · rw [if_neg hemp] at htgt
        have hpred := List.of_mem_filter htgt
        simp only [Bool.and_eq_true, Bool.not_eq_true', decide_eq_true_eq] at hpred
        have hread : resourceAt (depletedView w p) target.1 target.2 =
            resourceAt w target.1 target.2 := by
          show ((gridSet w.resource_grid p.1 p.2 false).getD target.2.toNat []).getD
            target.1.toNat false = _
          rw [gridRead_gridSet w.resource_grid p.1 p.2 target.1 target.2 false false
            hrL hrR hx0 (by omega) hy0 (by omega) htx0 (by omega) hty0 (by omega)]
          rw [if_neg (show ¬ (target.1 = p.1 ∧ target.2 = p.2) from
            fun hc => hne (Prod.ext hc.1 hc.2))]
          rfl
        rw [← hread]
        exact hpred.1
    · -- the agent is credited exactly the gathered energy
      rw [heqC]
      show dget (dset w.agents agentId aN) agentId = some aN
      exact dget_dset_self _ _ _
    · -- energy grid, pointwise
      intro u v hbuv
      obtain ⟨hu0, huw, hv0, hvh⟩ := hbuv
      have hcw : cellEnergy w u v = (w.energy_grid.getD v.toNat []).getD u.toNat 0 := by
        rw [cellEnergy, if_pos (show inBoundsXY w.width w.height u v from ⟨hu0, huw, hv0, hvh⟩)]
      rw [heqC]
      show (if inBoundsXY w.width w.height u v then
          ((gridSet (gridSet (gridSet w.energy_grid p.1 p.2 0) p.1 p.2 0) target.1 target.2
            w.max_energy).getD v.toNat []).getD u.toNat 0
        else 0) = _
      rw [if_pos (show inBoundsXY w.width w.height u v from ⟨hu0, huw, hv0, hvh⟩)]
      rw [gridRead_gridSet (gridSet (gridSet w.energy_grid p.1 p.2 0) p.1 p.2 0)
        target.1 target.2 u v w.max_energy 0 hsE2.1 hsE2.2 htx0 (by omega) hty0 (by omega)
        hu0 (by omega) hv0 (by omega)]
      rw [gridRead_gridSet (gridSet w.energy_grid p.1 p.2 0) p.1 p.2 u v 0 0
        hsE1.1 hsE1.2 hx0 (by omega) hy0 (by omega) hu0 (by omega) hv0 (by omega)]
      rw [gridRead_gridSet w.energy_grid p.1 p.2 u v 0 0 heL heR
        hx0 (by omega) hy0 (by omega) hu0 (by omega) hv0 (by omega)]
      rw [hcw]
      by_cases h1 : (u, v) = target
      · rw [if_pos h1, if_pos (show u = target.1 ∧ v = target.2 from
          ⟨congrArg Prod.fst h1, congrArg Prod.snd h1⟩)]
      · rw [if_neg h1, if_neg (show ¬ (u = target.1 ∧ v = target.2) from
          fun hc => h1 (Prod.ext hc.1 hc.2))]
        by_cases h2 : (u, v) = p
        · have hc2 : u = p.1 ∧ v = p.2 := ⟨congrArg Prod.fst h2, congrArg Prod.snd h2⟩
          rw [if_pos hc2, if_pos h2]
        · have hc2 : ¬ (u = p.1 ∧ v = p.2) := fun hc => h2 (Prod.ext hc.1 hc.2)
          rw [if_neg hc2, if_neg hc2, if_neg h2]
    · -- resource grid, pointwise
      intro u v hbuv
      obtain ⟨hu0, huw, hv0, hvh⟩ := hbuv
      rw [heqC]
      show ((gridSet (gridSet w.resource_grid p.1 p.2 false) target.1 target.2
          true).getD v.toNat []).getD u.toNat false = _
      rw [gridRead_gridSet (gridSet w.resource_grid p.1 p.2 false) target.1 target.2 u v
        true false hsR1.1 hsR1.2 htx0 (by omega) hty0 (by omega) hu0 (by omega) hv0 (by omega)]
      rw [gridRead_gridSet w.resource_grid p.1 p.2 u v false false hrL hrR
        hx0 (by omega) hy0 (by omega) hu0 (by omega) hv0 (by omega)]
      by_cases h1 : (u, v) = target
      · rw [if_pos h1, if_pos (show u = target.1 ∧ v = target.2 from
          ⟨congrArg Prod.fst h1, congrArg Prod.snd h1⟩)]
      · rw [if_neg h1, if_neg (show ¬ (u = target.1 ∧ v = target.2) from
          fun hc => h1 (Prod.ext hc.1 hc.2))]
        by_cases h2 : (u, v) = p
        · have hc2 : u = p.1 ∧ v = p.2 := ⟨congrArg Prod.fst h2, congrArg Prod.snd h2⟩
          rw [if_pos hc2, if_pos h2]
        · have hc2 : ¬ (u = p.1 ∧ v = p.2) := fun hc => h2 (Prod.ext hc.1 hc.2)
          rw [if_neg hc2, if_neg h2]
          rfl

/-- The C5 theorem instantiated at a world with one resource cell holding
100 under agent "G": the agent is credited exactly 100. -/
theorem c5_witness :
    dget (gatherEnergy w5 "G" 0).agents "G" =
      some { agentG5 with
        energy := agentG5.energy + cellEnergy w5 agentG5.position.1 agentG5.position.2 } := by
  obtain ⟨t, _, _, _, h4, _, _⟩ :=
    (c5_gather w5 "G" agentG5 0 (by decide)
      ⟨⟨by decide, by decide⟩, by decide, by decide⟩ (by decide)).2 (by decide)
  exact h4

/-! ## C4: GIVE -/

/-- C4 (amended): GIVE is a no-op when the target is missing, is the
donor itself, or is beyond Chebyshev distance 1; with non-negative
reserve and buffer, a minimum gift of at least 1 and a non-negative
requested amount, the transferred amount is the minimum of the donor's
spare above reserve+buffer, `max(minGift, amount)`, the outstanding
request amount (else the raw amount), and the capacity headroom when
bounded; it is a no-op when that minimum is non-positive; otherwise the
energy moves donor→recipient, the donor is marked a recent helper at the
current tick, and the recipient's request is re-evaluated: cleared when
fully served or when the recipient's energy now exceeds the aid
threshold, else reset to the recipient's remaining shortfall (not
necessarily smaller than the pre-gift outstanding amount). -/
theorem c4_give_energy (w : World) (donorId targetId : String) (donor : Agent) (amount : Int)
    (hd : dget w.agents donorId = some donor) :
    (dget w.agents targetId = none → giveEnergy w donorId targetId amount = w) ∧
    (∀ recipient, dget w.agents targetId = some recipient →
      (recipient.id = donor.id → giveEnergy w donorId targetId amount = w) ∧
      (max |recipient.position.1 - donor.position.1|
          |recipient.position.2 - donor.position.2| > 1 →
        giveEnergy w donorId targetId amount = w) ∧
      (recipient.id ≠ donor.id →
        max |recipient.position.1 - donor.position.1|
          |recipient.position.2 - donor.position.2| ≤ 1 →
        0 ≤ w.reactor_agent_reserve → 0 ≤ w.aid_give_buffer → 1 ≤ w.aid_give_min_amount →
        0 ≤ amount →
        (giveTransfer w donor recipient amount =
          (match recipient.max_capacity with
           | none =>
             min (donor.energy - (w.reactor_agent_reserve + w.aid_give_buffer))
               (min (max w.aid_give_min_amount amount)
                 (match requestEntry w recipient.id with
                  | some (_, amt, _) => amt
                  | none => amount))
           | some c =>
             min (min (donor.energy - (w.reactor_agent_reserve + w.aid_give_buffer))
               (min (max w.aid_give_min_amount amount)
                 (match requestEntry w recipient.id with
                  | some (_, amt, _) => amt
                  | none => amount))) (max 0 (c - recipient.energy)))) ∧
        (giveTransfer w donor recipient amount ≤ 0 →
          giveEnergy w donorId targetId amount = w) ∧
        (0 < giveTransfer w donor recipient amount → recipient.id = targetId →
          dget (giveEnergy w donorId targetId amount).agents donorId =
            some { donor with energy := donor.energy - giveTransfer w donor recipient amount } ∧
          dget (giveEnergy w donorId targetId amount).agents targetId =
            some { recipient with
              energy := recipient.energy + giveTransfer w donor recipient amount } ∧
          dget (giveEnergy w donorId targetId amount).helper_signals donor.id = some w.tick ∧
          (∀ p0 A0 t0, requestEntry w targetId = some (p0, A0, t0) →
            dget (giveEnergy w donorId targetId amount).help_requests targetId =
              (if A0 - giveTransfer w donor recipient amount ≤ 0 then none
               else if recipient.energy + giveTransfer w donor recipient amount >
                   max w.aid_request_threshold w.agent_energy_decay then none
               else if requestShortfall (max w.aid_request_threshold w.agent_energy_decay)
                   { recipient with
                     energy := recipient.energy + giveTransfer w donor recipient amount } ≤ 0
                 then none
               else some (recipient.position,
                 requestShortfall (max w.aid_request_threshold w.agent_energy_decay)
                   { recipient with
                     energy := recipient.energy + giveTransfer w donor recipient amount },
                 w.tick))) ∧
          (requestEntry w targetId = none → dget w.help_requests targetId = none →
            dget (giveEnergy w donorId targetId amount).help_requests targetId = none)))) := by
  constructor
  · intro hnone
    simp only [giveEnergy, hd, hnone]
  · intro recipient hrec
    refine ⟨?_, ?_, ?_⟩
    · intro hself
      simp only [giveEnergy, hd, hrec]
      rw [if_pos hself]
    · intro hfar
      simp only [giveEnergy, hd, hrec]
      by_cases hself : recipient.id = donor.id
      · rw [if_pos hself]
      · rw [if_neg hself, if_pos hfar]
    · intro hne hcheb hres hbuf hmin hamt
      have hflo : max 0 w.reactor_agent_reserve = w.reactor_agent_reserve := by omega
      have hbuf' : max 0 w.aid_give_buffer = w.aid_give_buffer := by omega
      have hmin' : max 1 w.aid_give_min_amount = w.aid_give_min_amount := by omega
      have hamt' : max 0 amount = amount := by omega
      have htrans : giveTransfer w donor recipient amount =
          (match recipient.max_capacity with
           | none =>
             min (donor.energy - (w.reactor_agent_reserve + w.aid_give_buffer))
               (min (max w.aid_give_min_amount amount)
                 (match requestEntry w recipient.id with
                  | some (_, amt, _) => amt
                  | none => amount))
           | some c =>
             min (min (donor.energy - (w.reactor_agent_reserve + w.aid_give_buffer))
               (min (max w.aid_give_min_amount amount)
                 (match requestEntry w recipient.id with
                  | some (_, amt, _) => amt
                  | none => amount))) (max 0 (c - recipient.energy))) := by
        rw [giveTransfer]
        simp only [hflo, hbuf', hmin', hamt']
      refine ⟨htrans, ?_, ?_⟩
      · intro htle
        simp only [giveEnergy, hd, hrec]
        rw [if_neg hne, if_neg (by omega), hflo, hbuf']
        by_cases heli : donor.energy - (w.reactor_agent_reserve + w.aid_give_buffer) ≤ 0
        · rw [if_pos heli]
        · rw [if_neg heli, if_pos htle]
      · intro htpos htid
        have hTle : giveTransfer w donor recipient amount ≤
            donor.energy - (max 0 w.reactor_agent_reserve + max 0 w.aid_give_buffer) := by
          rw [giveTransfer]
          rcases recipient.max_capacity with _ | c
          · simp only []
            omega
          · simp only []
            omega
        have heli : ¬ donor.energy - (w.reactor_agent_reserve + w.aid_give_buffer) ≤ 0 := by
          rw [hflo, hbuf'] at hTle
          omega
        have hdneq : donorId ≠ targetId := by
          intro hcon
          rw [hcon, hrec] at hd
          injection hd with hda
          exact hne (by rw [hda])
        -- reduce the give to its success branch
        simp only [giveEnergy, hd, hrec]
        rw [if_neg hne, if_neg (by omega), hflo, hbuf', if_neg heli,
          if_neg (show ¬ giveTransfer w donor recipient amount ≤ 0 by omega)]
        rcases hentry : requestEntry w recipient.id with _ | ⟨p0', A0', t0'⟩
        · -- no active request entry: the table is only touched by the re-check
          simp only [hentry]
          rw [maybeClear_hr_only]
          refine ⟨?_, ?_, ?_, ?_, ?_⟩
          · simp [dget_dset_ne _ _ _ _ hdneq, dget_dset_self]
          · simp [dget_dset_self]
          · simp [dget_dset_self]
          · intro p0 A0 t0 h4
            rw [← htid, hentry] at h4
            exact absurd h4 (by simp)
          · intro _ hraw
            have hr0 : dget w.help_requests recipient.id = none := by rw [htid]; exact hraw
            show dget (maybeClearHelpRequest _ _).help_requests targetId = none
            simp only [maybeClearHelpRequest, hr0]
            rw [htid] at hr0
            exact hr0
        · -- an active request entry exists
          simp only [hentry]
          by_cases hupd : 0 ⊔ (A0' - giveTransfer w donor recipient amount) > 0
          · rw [if_pos hupd]
            simp only [maybeClearHelpRequest, dget_dset_self]
            by_cases hth : recipient.energy + giveTransfer w donor recipient amount >
                w.aid_request_threshold ⊔ w.agent_energy_decay
            · rw [if_pos hth]
              refine ⟨?_, ?_, ?_, ?_, ?_⟩
              · simp [dget_dset_ne _ _ _ _ hdneq, dget_dset_self]
              · simp [dget_dset_self]
              · simp [dget_dset_self]
              · intro p0 A0 t0 h4
                rw [← htid] at h4 ⊢
                rw [hentry] at h4
                injection h4 with h4'
                have hA : A0 = A0' := by
                  have h := congrArg (fun q : (Int × Int) × Int × Int => q.2.1) h4'
                  simpa using h.symm
                rw [if_neg (show ¬ A0 - giveTransfer w donor recipient amount ≤ 0 from by omega),
                  if_pos hth]
                simp [dget_dpop_self]
              · intro h5 _
                rw [← htid, hentry] at h5
                exact absurd h5 (by simp)
            · rw [if_neg hth]
              by_cases hsf : requestShortfall (w.aid_request_threshold ⊔ w.agent_energy_decay)
                  { recipient with
                    energy := recipient.energy + giveTransfer w donor recipient amount } ≤ 0
              · rw [if_pos hsf]
                refine ⟨?_, ?_, ?_, ?_, ?_⟩
                · simp [dget_dset_ne _ _ _ _ hdneq, dget_dset_self]
                · simp [dget_dset_self]
                · simp [dget_dset_self]
                · intro p0 A0 t0 h4
                  rw [← htid] at h4 ⊢
                  rw [hentry] at h4
                  injection h4 with h4'
                  have hA : A0 = A0' := by
                    have h := congrArg (fun q : (Int × Int) × Int × Int => q.2.1) h4'
                    simpa using h.symm
                  rw [if_neg (show ¬ A0 - giveTransfer w donor recipient amount ≤ 0 from by omega),
                    if_neg hth, if_pos hsf]
                  simp [dget_dpop_self]
                · intro h5 _
                  rw [← htid, hentry] at h5
                  exact absurd h5 (by simp)
              · rw [if_neg hsf]
                refine ⟨?_, ?_, ?_, ?_, ?_⟩
                · simp [dget_dset_ne _ _ _ _ hdneq, dget_dset_self]
                · simp [dget_dset_self]
                · simp [dget_dset_self]
                · intro p0 A0 t0 h4
                  rw [← htid] at h4 ⊢
                  rw [hentry] at h4
                  injection h4 with h4'
                  have hA : A0 = A0' := by
                    have h := congrArg (fun q : (Int × Int) × Int × Int => q.2.1) h4'
                    simpa using h.symm
                  rw [if_neg (show ¬ A0 - giveTransfer w donor recipient amount ≤ 0 from by omega),
                    if_neg hth, if_neg hsf]
                  simp [dget_dset_self]
                · intro h5 _
                  rw [← htid, hentry] at h5
                  exact absurd h5 (by simp)
          · -- the gift fully serves the request: the entry is popped
            rw [if_neg hupd]
            have hget : dget (dpop w.help_requests recipient.id) recipient.id = none :=
              dget_dpop_self _ _
            simp only [maybeClearHelpRequest, hget]
            refine ⟨?_, ?_, ?_, ?_, ?_⟩
            · simp [dget_dset_ne _ _ _ _ hdneq, dget_dset_self]
            · simp [dget_dset_self]
            · simp [dget_dset_self]
            · intro p0 A0 t0 h4
              rw [← htid] at h4 ⊢
              rw [hentry] at h4
              injection h4 with h4'
              have hA : A0 = A0' := by
                have h := congrArg (fun q : (Int × Int) × Int × Int => q.2.1) h4'
                simpa using h.symm
              rw [if_pos (show A0 - giveTransfer w donor recipient amount ≤ 0 from by omega)]
              simp [dget_dpop_self]
            · intro h5 _
              rw [← htid, hentry] at h5
              exact absurd h5 (by simp)

/-- C4 counterexample to "the recipient's request is shrunk or cleared":
a donor with only 2 spare units gives 2 to a recipient whose request
outstanding is 35 while its shortfall is 39; after the GIVE the stored
request amount is 37 — larger than the 35 outstanding before the GIVE. -/
theorem c4_counterexample :
    dget w4c.help_requests "R" = some ((1, 0), 35, 0) ∧
    dget (giveEnergy w4c "D" "R" 5).agents "R" = some { recip4 with energy := 3 } ∧
    dget (giveEnergy w4c "D" "R" 5).help_requests "R" = some ((1, 0), 37, 0) ∧
    (35 : Int) < 37 :=
  ⟨by decide, by decide, by decide, by decide⟩

/-- The C4 theorem instantiated at the spec's scenario: donor with
energy 200 (reserve 80, buffer 10, minGift 5) adjacent to a recipient
with energy 5 and a live request for 20 — the transfer is 20, leaving
donor at 180, recipient at 25, and the request cleared. -/
theorem c4_witness :
    giveTransfer w4s donor4s recip4s 20 = 20 ∧
    dget (giveEnergy w4s "D" "R" 20).agents "D" =
      some { donor4s with energy := donor4s.energy - giveTransfer w4s donor4s recip4s 20 } ∧
    dget (giveEnergy w4s "D" "R" 20).agents "R" =
      some { recip4s with energy := recip4s.energy + giveTransfer w4s donor4s recip4s 20 } ∧
    dget (giveEnergy w4s "D" "R" 20).help_requests "R" = none := by
  obtain ⟨-, hmain⟩ := c4_give_energy w4s "D" "R" donor4s 20 (by decide)
  obtain ⟨-, -, hrest⟩ := hmain recip4s (by decide)
  obtain ⟨htr, -, hpos⟩ :=
    hrest (by decide) (by decide) (by decide) (by decide) (by decide) (by decide)
  obtain ⟨h1, h2, h3, h4, -⟩ := hpos (by decide) (by decide)
  refine ⟨by decide, h1, h2, ?_⟩
  rw [h4 (1, 0) 20 0 (by decide)]
  decide

/-! ## Stable sort lemmas -/

theorem mem_insertByKey {α : Type} (lt : α → α → Bool) (x z : α) :
    ∀ l : List α, z ∈ insertByKey lt x l ↔ z = x ∨ z ∈ l
  | [] => by simp [insertByKey]
  | y :: ys => by
    rw [insertByKey]
    split
    · rw [List.mem_cons, List.mem_cons, mem_insertByKey lt x z ys]
      tauto
    · rw [List.mem_cons]

theorem mem_sortByKey {α : Type} (lt : α → α → Bool) (z : α) :
    ∀ l : List α, z ∈ sortByKey lt l ↔ z ∈ l
  | [] => by simp [sortByKey]
  | x :: xs => by
    rw [sortByKey, mem_insertByKey]
    simp [mem_sortByKey lt z xs]

theorem pairwise_insertByKey {α : Type} (lt : α → α → Bool)
    (hasym : ∀ a b, lt a b = true → lt b a = false)
    (hnt : ∀ a b c, lt b a = false → lt c b = false → lt c a = false)
    (x : α) : ∀ l : List α, l.Pairwise (fun a b => lt b a = false) →
      (insertByKey lt x l).Pairwise (fun a b => lt b a = false)
  | [], _ => by simp [insertByKey]
  | y :: ys, hp => by
    obtain ⟨hy, hys⟩ := List.pairwise_cons.mp hp
    rw [insertByKey]
    split
    · rename_i hlt
      refine List.pairwise_cons.mpr ⟨?_, pairwise_insertByKey lt hasym hnt x ys hys⟩
      intro z hz
      rcases (mem_insertByKey lt x z ys).mp hz with rfl | hzys
      · exact hasym y z hlt
      · exact hy z hzys
    · rename_i hnlt
      have hyx : lt y x = false := by
        cases hc : lt y x
        · rfl
        · exact absurd hc hnlt
      refine List.pairwise_cons.mpr ⟨?_, hp⟩
      intro z hz
      rcases List.mem_cons.mp hz with rfl | hzys
      · exact hyx
      · exact hnt x y z hyx (hy z hzys)

theorem pairwise_sortByKey {α : Type} (lt : α → α → Bool)
    (hasym : ∀ a b, lt a b = true → lt b a = false)
    (hnt : ∀ a b c, lt b a = false → lt c b = false → lt c a = false) :
    ∀ l : List α, (sortByKey lt l).Pairwise (fun a b => lt b a = false)
  | [] => by simp [sortByKey]
  | x :: xs => by
    rw [sortByKey]
    exact pairwise_insertByKey lt hasym hnt x _ (pairwise_sortByKey lt hasym hnt xs)

/-- The head of a stably sorted list belongs to the original list and no
element compares strictly below it. -/
theorem sortByKey_head_min {α : Type} (lt : α → α → Bool)
    (hasym : ∀ a b, lt a b = true → lt b a = false)
    (hnt : ∀ a b c, lt b a = false → lt c b = false → lt c a = false)
    (hirr : ∀ a, lt a a = false)
    (l : List α) (x : α) (t : List α) (h : sortByKey lt l = x :: t) :
    x ∈ l ∧ ∀ z ∈ l, lt z x = false := by
  have hmem : x ∈ l := by
    rw [← mem_sortByKey lt x l, h]
    simp
  refine ⟨hmem, ?_⟩
  intro z hz
  have hzs : z ∈ x :: t := by
    rw [← h, mem_sortByKey]
    exact hz
  rcases List.mem_cons.mp hzs with rfl | hzt
  · exact hirr z
  · have hpw := pairwise_sortByKey lt hasym hnt l
    rw [h] at hpw
    exact (List.pairwise_cons.mp hpw).1 z hzt

theorem optKeyLt_asym (p q : Int × Int) : optKeyLt p q = true → optKeyLt q p = false := by
  intro h
  simp only [optKeyLt, decide_eq_true_eq] at h
  simp only [optKeyLt, decide_eq_false_iff_not]
  omega

theorem optKeyLt_negtrans (p q r : Int × Int) :
    optKeyLt q p = false → optKeyLt r q = false → optKeyLt r p = false := by
  intro h1 h2
  simp only [optKeyLt, decide_eq_false_iff_not] at h1 h2 ⊢
  omega

theorem optKeyLt_irrefl (p : Int × Int) : optKeyLt p p = false := by
  simp only [optKeyLt, decide_eq_false_iff_not]
  omega

theorem reqOptLt_asym (p q : ReqOption) : reqOptLt p q = true → reqOptLt q p = false :=
  optKeyLt_asym _ _

theorem reqOptLt_negtrans (p q r : ReqOption) :
    reqOptLt q p = false → reqOptLt r q = false → reqOptLt r p = false :=
  optKeyLt_negtrans _ _ _

theorem reqOptLt_irrefl (p : ReqOption) : reqOptLt p p = false :=
  optKeyLt_irrefl _

/-! ## C7: the altruistic step of Agent.choose -/

/-- C7 (amended): when the agent has no pending report, `Agent.choose`
returns whatever step 1 (the altruistic response) produces; the option
acted on is the head of the stable sort of `request_options` by
`(Manhattan distance, negated outstanding amount)` — it minimises that
lexicographic key over all options, remaining ties falling to the request
table's insertion order, with the Chebyshev component playing no part in
the ordering; and when the selected target is adjacent (Chebyshev ≤ 1)
with `shareable ≥ minGift`, the emitted action is GIVE of
`min(shareable, max(minGift, outstanding))`. -/
theorem c7_altruistic_choice (w : World) (a : Agent) (oracle : Nat)
    (hp : a.pending_report ≤ 0) :
    (∀ act, step1Choice (shareableOf w a) (giveMinOf w) a (availableMoves w a)
        (activeHelpRequests w).2 = some act →
      (chooseAction w a oracle).2 = act) ∧
    (∀ x t, sortByKey reqOptLt (requestOptions a (activeHelpRequests w).2) = x :: t →
      x ∈ requestOptions a (activeHelpRequests w).2 ∧
      ∀ z ∈ requestOptions a (activeHelpRequests w).2, reqOptLt z x = false) ∧
    (shareableOf w a ≥ giveMinOf w →
      ∀ man negNeed adj need tid tpos t,
        sortByKey reqOptLt (requestOptions a (activeHelpRequests w).2) =
          (man, negNeed, adj, need, tid, tpos) :: t →
        adj ≤ 1 →
        step1Choice (shareableOf w a) (giveMinOf w) a (availableMoves w a)
            (activeHelpRequests w).2 =
          some { actor := a.id,
                 kind := ActionK.give tid
                   (min (shareableOf w a) (max (giveMinOf w) need)) }) := by
  refine ⟨?_, ?_, ?_⟩
  · intro act hact
    simp only [chooseAction]
    rw [if_neg (show ¬ a.pending_report > 0 by omega)]
    rw [hact]
  · intro x t h
    exact sortByKey_head_min reqOptLt reqOptLt_asym reqOptLt_negtrans reqOptLt_irrefl _ x t h
  · intro hsh man negNeed adj need tid tpos t h hadj
    have hne : (activeHelpRequests w).2 ≠ [] := by
      intro hcon
      rw [hcon] at h
      simp [requestOptions, sortByKey] at h
    rw [step1Choice, if_pos ⟨hsh, hne⟩, h]
    have hgm : 1 ≤ giveMinOf w := by
      rw [giveMinOf]
      omega
    dsimp only
    rw [if_pos hadj,
      if_pos (show 0 < min (shareableOf w a) (max (giveMinOf w) need) by omega)]

/-- C7 counterexample: two active requests tie on Manhattan distance 2
and outstanding amount 20; the adjacent one ("B", Chebyshev 1) is NOT
selected — the code keeps table order and acts on "A" (Chebyshev 2),
emitting a MOVE instead of the GIVE to "B" that a Chebyshev tie-break
would produce. -/
theorem c7_counterexample :
    requestOptions agentD7 (activeHelpRequests w7).2 =
      [(2, -20, 2, 20, "A", (2, 0)), (2, -20, 1, 20, "B", (1, 1))] ∧
    (chooseAction w7 agentD7 0).2 = { actor := "D", kind := ActionK.move 1 0 } ∧
    (chooseAction w7 agentD7 0).2 ≠ { actor := "D", kind := ActionK.give "B" 20 } :=
  ⟨by decide, by decide, by decide⟩

/-- The C7 theorem instantiated at the tied-request world: step 1 emits
the MOVE toward "A" and `Agent.choose` returns exactly it. -/
theorem c7_witness :
    agentD7.pending_report ≤ 0 ∧
    (chooseAction w7 agentD7 0).2 = { actor := "D", kind := ActionK.move 1 0 } :=
  ⟨by decide, (c7_altruistic_choice w7 agentD7 0 (by decide)).1 _ (by decide)⟩

/-- The C3 theorem instantiated at an agent with pending balance 7:
claiming 7 credits 7 honestly and zeroes the balance. -/
theorem c3_witness :
    agentP3.pending_report > 0 ∧
    (recordDepositReport w3r "P" agentP3.pending_report).deposit_reports.getLast? =
      some (w3r.tick, agentP3.id, agentP3.pending_report, agentP3.pending_report, false) ∧
    dget (recordDepositReport w3r "P" agentP3.pending_report).agents "P" =
      some { agentP3 with pending_report := 0 } :=
  ⟨by decide, (c3_report_roundtrip w3r "P" agentP3 (by decide)).1 (by decide)⟩

/-! ## Occupancy-consistency building blocks -/

theorem OccConsistent_of_eq (w w' : World) (hA : w'.agents = w.agents)
    (hO : w'.occupancy = w.occupancy) (h : OccConsistent w) : OccConsistent w' := by
  unfold OccConsistent
  rw [hA, hO]
  exact h

theorem occ_set_samePos (w w' : World) (k : String) (a a' : Agent)
    (hC : OccConsistent w) (hk : dget w.agents k = some a) (hpos : a'.position = a.position)
    (hA : w'.agents = dset w.agents k a') (hO : w'.occupancy = w.occupancy) :
    OccConsistent w' := by
  obtain ⟨h1, h2⟩ := hC
  constructor
  · intro k2 a2 hget
    rw [hA] at hget
    rw [hO]
    by_cases hk2 : k2 = k
    · subst hk2
      rw [dget_dset_self] at hget
      injection hget with he
      subst he
      rw [hpos]
      exact h1 k2 a hk
    · rw [dget_dset_ne _ _ _ _ hk2] at hget
      exact h1 k2 a2 hget
  · intro pos k2 hget
    rw [hO] at hget
    rw [hA]
    obtain ⟨a2, ha2, hpos2⟩ := h2 pos k2 hget
    by_cases hk2 : k2 = k
    · subst hk2
      refine ⟨a', by rw [dget_dset_self], ?_⟩
      rw [hk] at ha2
      injection ha2 with he
      rw [hpos, he]
      exact hpos2
    · exact ⟨a2, by rw [dget_dset_ne _ _ _ _ hk2]; exact ha2, hpos2⟩

theorem occ_insert_fresh (w w' : World) (k : String) (a' : Agent) (p : Int × Int)
    (hC : OccConsistent w) (hfreshA : dget w.agents k = none)
    (hfreshO : dget w.occupancy p = none) (hposa : a'.position = p)
    (hA : w'.agents = dset w.agents k a') (hO : w'.occupancy = dset w.occupancy p k) :
    OccConsistent w' := by
  obtain ⟨h1, h2⟩ := hC
  constructor
  · intro k2 a2 hget
    rw [hA] at hget
    rw [hO]
    by_cases hk2 : k2 = k
    · subst hk2
      rw [dget_dset_self] at hget
      injection hget with he
      subst he
      rw [hposa, dget_dset_self]
    · rw [dget_dset_ne _ _ _ _ hk2] at hget
      have hocc := h1 k2 a2 hget
      have hne : a2.position ≠ p := by
        intro hcon
        rw [hcon, hfreshO] at hocc
        exact absurd hocc (by simp)
      rw [dget_dset_ne _ _ _ _ hne]
      exact hocc
  · intro pos k2 hget
    rw [hO] at hget
    rw [hA]
    by_cases hpos : pos = p
    · subst hpos
      rw [dget_dset_self] at hget
      injection hget with he
      subst he
      exact ⟨a', by rw [dget_dset_self], hposa⟩
    · rw [dget_dset_ne _ _ _ _ hpos] at hget
      obtain ⟨a2, ha2, hpos2⟩ := h2 pos k2 hget
      have hk2 : k2 ≠ k := by
        intro hcon
        rw [hcon, hfreshA] at ha2
        exact absurd ha2 (by simp)
      exact ⟨a2, by rw [dget_dset_ne _ _ _ _ hk2]; exact ha2, hpos2⟩

theorem occ_move (w w' : World) (k : String) (a a' : Agent) (q : Int × Int)
    (hC : OccConsistent w) (hk : dget w.agents k = some a)
    (hq : dget w.occupancy q = none) (hpos : a'.position = q)
    (hA : w'.agents = dset w.agents k a')
    (hO : w'.occupancy = dset (dpop w.occupancy a.position) q k) :
    OccConsistent w' := by
  obtain ⟨h1, h2⟩ := hC
  constructor
  · intro k2 a2 hget
    rw [hA] at hget
    rw [hO]
    by_cases hk2 : k2 = k
    · subst hk2
      rw [dget_dset_self] at hget
      injection hget with he
      subst he
      rw [hpos, dget_dset_self]
    · rw [dget_dset_ne _ _ _ _ hk2] at hget
      have hocc := h1 k2 a2 hget
      have hne1 : a2.position ≠ q := by
        intro hcon
        rw [hcon, hq] at hocc
        exact absurd hocc (by simp)
      have hne2 : a2.position ≠ a.position := by
        intro hcon
        have hocc2 := h1 k a hk
        rw [hcon] at hocc
        rw [hocc] at hocc2
        injection hocc2 with he
        exact hk2 he
      rw [dget_dset_ne _ _ _ _ hne1, dget_dpop_ne _ _ _ hne2]
      exact hocc
  · intro pos k2 hget
    rw [hO] at hget
    rw [hA]
    by_cases hposq : pos = q
    · subst hposq
      rw [dget_dset_self] at hget
      injection hget with he
      subst he
      exact ⟨a', by rw [dget_dset_self], hpos⟩
    · rw [dget_dset_ne _ _ _ _ hposq] at hget
      have hposa : pos ≠ a.position := by
        intro hcon
        rw [hcon, dget_dpop_self] at hget
        exact absurd hget (by simp)
      rw [dget_dpop_ne _ _ _ hposa] at hget
      obtain ⟨a2, ha2, hpos2⟩ := h2 pos k2 hget
      have hk2 : k2 ≠ k := by
        intro hcon
        rw [hcon, hk] at ha2
        injection ha2 with he
        rw [← he] at hpos2
        exact hposa (hpos2 ▸ rfl)
      exact ⟨a2, by rw [dget_dset_ne _ _ _ _ hk2]; exact ha2, hpos2⟩

theorem occ_remove (w w' : World) (k : String) (a : Agent)
    (hC : OccConsistent w) (hk : dget w.agents k = some a)
    (hA : w'.agents = dpop w.agents k)
    (hO : w'.occupancy = dpop w.occupancy a.position) :
    OccConsistent w' := by
  obtain ⟨h1, h2⟩ := hC
  constructor
  · intro k2 a2 hget
    rw [hA] at hget
    rw [hO]
    have hk2 : k2 ≠ k := by
      intro hcon
      rw [hcon, dget_dpop_self] at hget
      exact absurd hget (by simp)
    rw [dget_dpop_ne _ _ _ hk2] at hget
    have hocc := h1 k2 a2 hget
    have hne : a2.position ≠ a.position := by
      intro hcon
      have hocc2 := h1 k a hk
      rw [hcon] at hocc
      rw [hocc] at hocc2
      injection hocc2 with he
      exact hk2 he
    rw [dget_dpop_ne _ _ _ hne]
    exact hocc
  · intro pos k2 hget
    rw [hO] at hget
    rw [hA]
    have hposa : pos ≠ a.position := by
      intro hcon
      rw [hcon, dget_dpop_self] at hget
      exact absurd hget (by simp)
    rw [dget_dpop_ne _ _ _ hposa] at hget
    obtain ⟨a2, ha2, hpos2⟩ := h2 pos k2 hget
    have hk2 : k2 ≠ k := by
      intro hcon
      rw [hcon, hk] at ha2
      injection ha2 with he
      rw [← he] at hpos2
      exact hposa (hpos2 ▸ rfl)
    exact ⟨a2, by rw [dget_dpop_ne _ _ _ hk2]; exact ha2, hpos2⟩

theorem occ_mapVal (w w' : World) (f : Agent → Agent)
    (hposf : ∀ x, (f x).position = x.position)
    (hC : OccConsistent w)
    (hA : w'.agents = w.agents.map (fun kv => (kv.1, f kv.2)))
    (hO : w'.occupancy = w.occupancy) : OccConsistent w' := by
  obtain ⟨h1, h2⟩ := hC
  constructor
  · intro k2 a2 hget
    rw [hA, dget_mapVal] at hget
    rw [hO]
    rcases hg : dget w.agents k2 with _ | a0
    · rw [hg] at hget
      exact absurd hget (by simp)
    · rw [hg] at hget
      rw [show Option.map f (some a0) = some (f a0) from rfl] at hget
      injection hget with he
      rw [← he, hposf]
      exact h1 k2 a0 hg
  · intro pos k2 hget
    rw [hO] at hget
    rw [hA]
    obtain ⟨a2, ha2, hpos2⟩ := h2 pos k2 hget
    refine ⟨f a2, ?_, by rw [hposf]; exact hpos2⟩
    rw [dget_mapVal, ha2]
    rfl

theorem occ_prune (w : World) (hC : OccConsistent w) :
    OccConsistent (pruneHelpRequests w) :=
  OccConsistent_of_eq w _ rfl rfl hC

theorem occ_decaySignals (w : World) (hC : OccConsistent w) :
    OccConsistent (decayHelperSignals w) := by
  unfold decayHelperSignals
  split
  · exact hC
  · exact OccConsistent_of_eq w _ rfl rfl hC

theorem occ_updateRequest (w : World) (a : Agent) (hC : OccConsistent w) :
    OccConsistent (updateRequestPosition w a) := by
  unfold updateRequestPosition
  split
  · exact hC
  · exact OccConsistent_of_eq w _ rfl rfl hC

theorem occ_cancel (w : World) (agentId : String) (hC : OccConsistent w) :
    OccConsistent (cancelHelpRequest w agentId) :=
  OccConsistent_of_eq w _ rfl rfl hC

theorem occ_maybeClear (w : World) (a : Agent) (hC : OccConsistent w) :
    OccConsistent (maybeClearHelpRequest w a) := by
  refine OccConsistent_of_eq w _ ?_ ?_ hC
  · rw [maybeClear_hr_only]
  · rw [maybeClear_hr_only]

theorem occ_register (w : World) (agentId : String) (amount : Int)
    (hC : OccConsistent w) : OccConsistent (registerHelpRequest w agentId amount) := by
  unfold registerHelpRequest
  split
  · exact hC
  · dsimp
    split
    · exact hC
    · exact OccConsistent_of_eq w _ rfl rfl hC

theorem occ_record (w : World) (agentId : String) (amount : Int)
    (hC : OccConsistent w) : OccConsistent (recordDepositReport w agentId amount) := by
  rcases hq : dget w.agents agentId with _ | a
  · unfold recordDepositReport
    rw [hq]
    exact hC
  · unfold recordDepositReport
    rw [hq]
    dsimp
    split
    · exact hC
    · by_cases hp : a.pending_report > 0
      · rw [if_pos hp]
        refine occ_set_samePos w _ agentId a _ hC hq ?_ rfl rfl
        rfl
      · rw [if_neg hp]
        exact OccConsistent_of_eq w _ rfl rfl hC

theorem occ_deposit (w : World) (agentId : String) (hC : OccConsistent w) :
    OccConsistent (depositEnergy w agentId) := by
  rcases hq : dget w.agents agentId with _ | a
  · unfold depositEnergy
    rw [hq]
    exact hC
  · unfold depositEnergy
    rw [hq]
    dsimp
    split
    · exact hC
    · split
      · exact hC
      · split
        · exact OccConsistent_of_eq w _ rfl rfl hC
        · refine occ_set_samePos _ _ agentId a _
            (OccConsistent_of_eq w _ rfl rfl hC) hq ?_ rfl rfl
          rfl

theorem occ_gather (w : World) (agentId : String) (orc : Nat)
    (hC : OccConsistent w) : OccConsistent (gatherEnergy w agentId orc) := by
  rcases hq : dget w.agents agentId with _ | a
  · unfold gatherEnergy
    rw [hq]
    exact hC
  · unfold gatherEnergy
    rw [hq]
    dsimp
    split
    · exact hC
    · refine OccConsistent_of_eq _ _ rfl rfl (occ_maybeClear _ _ ?_)
      refine occ_set_samePos _ _ agentId a _
        (OccConsistent_of_eq w _ rfl rfl hC) hq ?_ rfl rfl
      rfl

theorem occ_moveTo (w : World) (agentId : String) (a : Agent) (n : Int × Int)
    (hC : OccConsistent w) (hk : dget w.agents agentId = some a) :
    OccConsistent (moveTo w agentId a n) := by
  unfold moveTo
  split
  · exact hC
  · rename_i hne
    dsimp
    split
    · exact hC
    · rename_i hblocked
      rcases hocc : dget w.occupancy n with _ | o
      · refine occ_deposit _ _ (occ_updateRequest _ _ ?_)
        refine occ_move w _ agentId a _ n hC hk hocc ?_ rfl rfl
        rfl
      · exfalso
        have ho : o = agentId := by
          rw [show occupantAt w n = dget w.occupancy n from rfl, hocc] at hblocked
          simpa using hblocked
        obtain ⟨a2, ha2, hpos2⟩ := hC.2 n agentId (by rw [← ho]; exact hocc)
        rw [hk] at ha2
        injection ha2 with he
        subst he
        rw [← hpos2] at hne
        exact hne rfl

theorem occ_moveAgent (w : World) (agentId : String) (dx dy : Int)
    (hC : OccConsistent w) : OccConsistent (moveAgent w agentId dx dy) := by
  rcases hq : dget w.agents agentId with _ | a
  · unfold moveAgent
    rw [hq]
    exact hC
  · unfold moveAgent
    rw [hq]
    exact occ_moveTo w agentId a _ hC hq

theorem occ_give (w : World) (donorId targetId : String) (amount : Int)
    (hC : OccConsistent w) : OccConsistent (giveEnergy w donorId targetId amount) := by
  rcases hqd : dget w.agents donorId with _ | donor
  · unfold giveEnergy
    rw [hqd]
    exact hC
  · rcases hqt : dget w.agents targetId with _ | recipient
    · unfold giveEnergy
      rw [hqd, hqt]
      exact hC
    · unfold giveEnergy
      rw [hqd, hqt]
      dsimp
      split
      · exact hC
      · rename_i hid
        split
        · exact hC
        · split
          · exact hC
          · split
            · exact hC
            · by_cases htd : targetId = donorId
              · exfalso
                rw [htd, hqd] at hqt
                injection hqt with he
                exact hid (by rw [← he])
              · have hC1 : OccConsistent { w with agents := (dset w.agents donorId
                    { donor with energy :=
                      donor.energy - giveTransfer w donor recipient amount }) } := by
                  refine occ_set_samePos w _ donorId donor _ hC hqd ?_ rfl rfl
                  rfl
                have hqt1 : dget (dset w.agents donorId
                    { donor with energy :=
                      donor.energy - giveTransfer w donor recipient amount }) targetId =
                    some recipient := by
                  rw [dget_dset_ne _ _ _ _ htd]
                  exact hqt
                have hC2 : OccConsistent { w with agents := (dset (dset w.agents donorId
                    { donor with energy :=
                      donor.energy - giveTransfer w donor recipient amount }) targetId
                    { recipient with energy :=
                      recipient.energy + giveTransfer w donor recipient amount }) } := by
                  refine occ_set_samePos _ _ targetId recipient _ hC1 hqt1 ?_ rfl rfl
                  rfl
                refine OccConsistent_of_eq _ _ rfl rfl (occ_maybeClear _ _ ?_)
                split
                · split
                  · exact OccConsistent_of_eq _ _ rfl rfl hC2
                  · exact OccConsistent_of_eq _ _ rfl rfl hC2
                · exact hC2

theorem occ_removeAgent (w : World) (agentId : String) (hC : OccConsistent w) :
    OccConsistent (removeAgent w agentId) := by
  rcases hq : dget w.agents agentId with _ | a
  · unfold removeAgent
    rw [hq]
    exact hC
  · unfold removeAgent
    rw [hq]
    exact occ_remove w _ agentId a hC hq rfl rfl

theorem occ_foldRemove : ∀ (l : List String) (w : World), OccConsistent w →
    OccConsistent (l.foldl removeAgent w)
  | [], _, h => h
  | agentId :: rest, w, h => occ_foldRemove rest _ (occ_removeAgent w agentId h)

theorem occ_decayAgents (w : World) (hC : OccConsistent w) :
    OccConsistent (decayAgentEnergy w) := by
  unfold decayAgentEnergy
  split
  · exact hC
  · exact occ_foldRemove _ _ (occ_mapVal w _
      (fun a => { a with energy := max 0 (a.energy - w.agent_energy_decay) })
      (fun _ => rfl) hC rfl rfl)

theorem occ_dwindle (w : World) (amount : Int) (hC : OccConsistent w) :
    OccConsistent (dwindleResources w amount) := by
  unfold dwindleResources
  split
  · exact hC
  · exact OccConsistent_of_eq w _ rfl rfl hC

theorem occ_consume (w : World) (hC : OccConsistent w) :
    OccConsistent (consumeReactor w) := by
  unfold consumeReactor
  split
  · exact hC
  · exact OccConsistent_of_eq w _ rfl rfl hC

theorem occ_conseq (w : World) (hC : OccConsistent w) :
    OccConsistent (applyReactorConsequences w) := by
  unfold applyReactorConsequences
  split
  · exact occ_dwindle _ _ hC
  · exact hC

theorem occ_apply (w : World) (act : Action) (orc : Nat) (hC : OccConsistent w) :
    OccConsistent (applyAction w act orc) := by
  unfold applyAction
  rcases hq : dget w.agents act.actor with _ | a
  · exact hC
  · cases act.kind with
    | move dx dy => exact occ_moveAgent w act.actor dx dy hC
    | gather => exact occ_gather w act.actor orc hC
    | deposit amt => exact occ_deposit w act.actor hC
    | report amt => exact occ_record w act.actor amt hC
    | request amt => exact occ_register w act.actor amt hC
    | give tgt amt => exact occ_give w act.actor tgt amt hC

theorem occ_decideFold (policy : World → String → World × Action)
    (hf : PolicyFrame policy) : ∀ (ids : List String) (st : World × List Action),
    OccConsistent st.1 → OccConsistent (ids.foldl (decideStep policy) st).1
  | [], _, h => h
  | agentId :: rest, st, h => by
    refine occ_decideFold policy hf rest _ ?_
    show OccConsistent (policy (autoDeposit st.1 agentId) agentId).1
    refine OccConsistent_of_eq _ _ ?_ ?_ (occ_deposit st.1 agentId h)
    · rw [hf (autoDeposit st.1 agentId) agentId]
      rfl
    · rw [hf (autoDeposit st.1 agentId) agentId]
      rfl

theorem occ_applyFold (orc : Nat → Nat) : ∀ (acts : List Action) (st : World × Nat),
    OccConsistent st.1 → OccConsistent (acts.foldl (applyStep orc) st).1
  | [], _, h => h
  | act :: rest, st, h =>
    occ_applyFold orc rest _ (occ_apply st.1 act (orc st.2) h)

theorem occ_stepWith (w : World) (policy : World → String → World × Action)
    (orc : Nat → Nat) (hf : PolicyFrame policy) (hC : OccConsistent w) :
    OccConsistent (stepWith w policy orc) := by
  unfold stepWith
  exact occ_conseq _ (occ_consume _ (occ_decayAgents _
    (occ_applyFold orc _ _ (occ_decideFold policy hf _ _
      (occ_decaySignals _ (occ_prune _ (OccConsistent_of_eq w _ rfl rfl hC)))))))

theorem ensureFree_none (w : World) (p q : Int × Int)
    (h : ensureFreePosition w p = some q) : dget w.occupancy q = none := by
  unfold ensureFreePosition at h
  split at h
  · have hf := List.find?_some h
    simp only [Bool.not_eq_true'] at hf
    unfold isOccupied occupantAt at hf
    rcases hd : dget w.occupancy (q.1, q.2) with _ | v
    · rfl
    · rw [hd] at hf
      exact absurd hf (by simp)
  · injection h with he
    subst he
    rename_i hocc
    rcases hd : dget w.occupancy p with _ | v
    · rfl
    · exfalso
      exact hocc (by rw [show occupantAt w p = dget w.occupancy p from rfl, hd]; rfl)

/-- C1: in every world reachable from a fresh `World` by `add_agent` calls
with distinct ids and `step()` calls (any policies satisfying the
`Agent.choose` frame, any random draws), the occupancy table and the agent
positions are mutually consistent - every live agent's position maps back
to its id, every occupancy entry names a live agent standing there - and
consequently no two live agents share a position. -/
theorem c1_occupancy_consistent (w : World) (h : Reach w) :
    OccConsistent w ∧
    ∀ k1 k2 a1 a2, dget w.agents k1 = some a1 → dget w.agents k2 = some a2 →
      a1.position = a2.position → k1 = k2 := by
  have hocc : OccConsistent w := by
    induction h with
    | init cfg draw =>
      constructor
      · intro k a hget
        rw [show (worldInit cfg draw).agents = [] from rfl, dget_nil] at hget
        exact absurd hget (by simp)
      · intro p k hget
        rw [show (worldInit cfg draw).occupancy = [] from rfl, dget_nil] at hget
        exact absurd hget (by simp)
    | add w0 a w' hr hfresh hadd ih =>
      unfold addAgent at hadd
      dsimp at hadd
      rcases hef : ensureFreePosition w0 (clampPos w0 a.position.1 a.position.2)
        with _ | p
      · rw [hef] at hadd
        exact absurd hadd (by simp)
      · rw [hef] at hadd
        injection hadd with he
        refine occ_insert_fresh w0 w' a.id { a with position := p } p ih hfresh
          (ensureFree_none w0 _ p hef) rfl ?_ ?_
        · rw [← he]
        · rw [← he]
    | step w0 policy orc hr hf ih => exact occ_stepWith w0 policy orc hf ih
  refine ⟨hocc, ?_⟩
  intro k1 k2 a1 a2 h1 h2 hpos
  have o1 := hocc.1 k1 a1 h1
  have o2 := hocc.1 k2 a2 h2
  rw [hpos] at o1
  rw [o1] at o2
  injection o2 with he

/-- Witness for C1 at the concrete 2x2 configuration: the freshly built
world is reachable and therefore consistent. -/
theorem c1_witness :
    OccConsistent (worldInit cfgA drawNone) ∧
    ∀ k1 k2 a1 a2, dget (worldInit cfgA drawNone).agents k1 = some a1 →
      dget (worldInit cfgA drawNone).agents k2 = some a2 →
      a1.position = a2.position → k1 = k2 :=
  c1_occupancy_consistent (worldInit cfgA drawNone) (Reach.init cfgA drawNone)

theorem ReactorInv_of_eq (w w' : World) (h : w'.reactor = w.reactor)
    (hC : ReactorInv w) : ReactorInv w' := by
  unfold ReactorInv
  rw [h]
  exact hC

theorem rinv_reactor_deposit (r : Reactor) (amount : Int)
    (h0 : 0 ≤ r.energy) (h1 : r.energy ≤ r.capacity) :
    0 ≤ (Reactor.deposit r amount).2.energy ∧
    (Reactor.deposit r amount).2.energy ≤ (Reactor.deposit r amount).2.capacity := by
  unfold Reactor.deposit
  split
  · exact ⟨h0, h1⟩
  · rename_i hc
    dsimp
    omega

theorem rcap_reactor_deposit (r : Reactor) (amount : Int) :
    (Reactor.deposit r amount).2.capacity = r.capacity := by
  unfold Reactor.deposit
  split
  · rfl
  · rfl

theorem rinv_reactor_draw (r : Reactor) (amount : Int)
    (h0 : 0 ≤ r.energy) (h1 : r.energy ≤ r.capacity) :
    0 ≤ (Reactor.draw r amount).2.energy ∧
    (Reactor.draw r amount).2.energy ≤ (Reactor.draw r amount).2.capacity := by
  unfold Reactor.draw
  split
  · exact ⟨h0, h1⟩
  · rename_i hc
    dsimp
    omega

theorem rcap_reactor_draw (r : Reactor) (amount : Int) :
    (Reactor.draw r amount).2.capacity = r.capacity := by
  unfold Reactor.draw
  split
  · rfl
  · rfl

theorem reactor_decaySignals (w : World) :
    (decayHelperSignals w).reactor = w.reactor := by
  unfold decayHelperSignals
  split <;> rfl

theorem reactor_updateRequest (w : World) (a : Agent) :
    (updateRequestPosition w a).reactor = w.reactor := by
  unfold updateRequestPosition
  split <;> rfl

theorem reactor_maybeClear (w : World) (a : Agent) :
    (maybeClearHelpRequest w a).reactor = w.reactor := by
  rw [maybeClear_hr_only]

theorem reactor_register (w : World) (agentId : String) (amount : Int) :
    (registerHelpRequest w agentId amount).reactor = w.reactor := by
  unfold registerHelpRequest
  split
  · rfl
  · dsimp
    split <;> rfl

theorem reactor_record (w : World) (agentId : String) (amount : Int) :
    (recordDepositReport w agentId amount).reactor = w.reactor := by
  unfold recordDepositReport
  split
  · rfl
  · dsimp
    split <;> rfl

theorem reactor_deplete (w : World) (p : Int × Int) (orc : Nat) :
    (depleteResource w p orc).reactor = w.reactor := rfl

theorem reactor_gather (w : World) (agentId : String) (orc : Nat) :
    (gatherEnergy w agentId orc).reactor = w.reactor := by
  unfold gatherEnergy
  split
  · rfl
  · dsimp
    split
    · rfl
    · rw [reactor_deplete, reactor_maybeClear]

theorem reactor_give (w : World) (donorId targetId : String) (amount : Int) :
    (giveEnergy w donorId targetId amount).reactor = w.reactor := by
  unfold giveEnergy
  split
  · rfl
  · split
    · rfl
    · dsimp
      split
      · rfl
      · split
        · rfl
        · split
          · rfl
          · split
            · rfl
            · show (maybeClearHelpRequest _ _).reactor = w.reactor
              rw [reactor_maybeClear]
              split
              · split <;> rfl
              · rfl

theorem reactor_removeAgent (w : World) (agentId : String) :
    (removeAgent w agentId).reactor = w.reactor := by
  unfold removeAgent
  split <;> rfl

theorem reactor_foldRemove : ∀ (l : List String) (w : World),
    (l.foldl removeAgent w).reactor = w.reactor
  | [], _ => rfl
  | agentId :: rest, w =>
    (reactor_foldRemove rest (removeAgent w agentId)).trans (reactor_removeAgent w agentId)

theorem reactor_decayAgents (w : World) :
    (decayAgentEnergy w).reactor = w.reactor := by
  unfold decayAgentEnergy
  split
  · rfl
  · exact (reactor_foldRemove _ _).trans rfl

theorem reactor_dwindle (w : World) (amount : Int) :
    (dwindleResources w amount).reactor = w.reactor := by
  unfold dwindleResources
  split <;> rfl

theorem rinv_deposit (w : World) (agentId : String) (h : ReactorInv w) :
    ReactorInv (depositEnergy w agentId) := by
  rcases hq : dget w.agents agentId with _ | a
  · unfold depositEnergy
    rw [hq]
    exact h
  · unfold depositEnergy
    rw [hq]
    dsimp
    split
    · exact h
    · split
      · exact h
      · have hr := rinv_reactor_deposit w.reactor
          (max 0 (a.energy - w.reactor_agent_reserve)) h.1 h.2
        split
        · exact hr
        · exact hr

theorem rcap_deposit (w : World) (agentId : String) :
    (depositEnergy w agentId).reactor.capacity = w.reactor.capacity := by
  rcases hq : dget w.agents agentId with _ | a
  · unfold depositEnergy
    rw [hq]
  · unfold depositEnergy
    rw [hq]
    dsimp
    split
    · rfl
    · split
      · rfl
      · have hc := rcap_reactor_deposit w.reactor
          (max 0 (a.energy - w.reactor_agent_reserve))
        split
        · exact hc
        · exact hc

theorem rinv_consume (w : World) (h : ReactorInv w) :
    ReactorInv (consumeReactor w) := by
  unfold consumeReactor
  split
  · exact h
  · exact rinv_reactor_draw w.reactor w.reactor_consumption_rate h.1 h.2

theorem rcap_consume (w : World) :
    (consumeReactor w).reactor.capacity = w.reactor.capacity := by
  unfold consumeReactor
  split
  · rfl
  · exact rcap_reactor_draw w.reactor w.reactor_consumption_rate

theorem rinv_conseq (w : World) (h : ReactorInv w) :
    ReactorInv (applyReactorConsequences w) := by
  unfold applyReactorConsequences
  split
  · exact ReactorInv_of_eq _ _ (reactor_dwindle w _) h
  · exact h

theorem rcap_conseq (w : World) :
    (applyReactorConsequences w).reactor.capacity = w.reactor.capacity := by
  unfold applyReactorConsequences
  split
  · exact congrArg Reactor.capacity (reactor_dwindle w _)
  · rfl

theorem autoDeposit_eq (w : World) (agentId : String) :
    autoDeposit w agentId = depositEnergy w agentId := rfl

theorem rinv_moveTo (w : World) (agentId : String) (a : Agent) (n : Int × Int)
    (h : ReactorInv w) : ReactorInv (moveTo w agentId a n) := by
  unfold moveTo
  split
  · exact h
  · dsimp
    split
    · exact h
    · exact rinv_deposit _ _ (ReactorInv_of_eq _ _ (reactor_updateRequest _ _)
        (ReactorInv_of_eq _ _ rfl h))

theorem rcap_moveTo (w : World) (agentId : String) (a : Agent) (n : Int × Int) :
    (moveTo w agentId a n).reactor.capacity = w.reactor.capacity := by
  unfold moveTo
  split
  · rfl
  · dsimp
    split
    · rfl
    · rw [autoDeposit_eq, rcap_deposit, reactor_updateRequest]

theorem rinv_moveAgent (w : World) (agentId : String) (dx dy : Int)
    (h : ReactorInv w) : ReactorInv (moveAgent w agentId dx dy) := by
  rcases hq : dget w.agents agentId with _ | a
  · unfold moveAgent
    rw [hq]
    exact h
  · unfold moveAgent
    rw [hq]
    exact rinv_moveTo w agentId a _ h

theorem rcap_moveAgent (w : World) (agentId : String) (dx dy : Int) :
    (moveAgent w agentId dx dy).reactor.capacity = w.reactor.capacity := by
  rcases hq : dget w.agents agentId with _ | a
  · unfold moveAgent
    rw [hq]
  · unfold moveAgent
    rw [hq]
    exact rcap_moveTo w agentId a _

theorem rinv_apply (w : World) (act : Action) (orc : Nat) (h : ReactorInv w) :
    ReactorInv (applyAction w act orc) := by
  unfold applyAction
  rcases hq : dget w.agents act.actor with _ | a
  · exact h
  · cases act.kind with
    | move dx dy => exact rinv_moveAgent w act.actor dx dy h
    | gather => exact ReactorInv_of_eq _ _ (reactor_gather w act.actor orc) h
    | deposit amt => exact rinv_deposit w act.actor h
    | report amt => exact ReactorInv_of_eq _ _ (reactor_record w act.actor amt) h
    | request amt => exact ReactorInv_of_eq _ _ (reactor_register w act.actor amt) h
    | give tgt amt => exact ReactorInv_of_eq _ _ (reactor_give w act.actor tgt amt) h

theorem rcap_apply (w : World) (act : Action) (orc : Nat) :
    (applyAction w act orc).reactor.capacity = w.reactor.capacity := by
  unfold applyAction
  rcases hq : dget w.agents act.actor with _ | a
  · rfl
  · cases act.kind with
    | move dx dy => exact rcap_moveAgent w act.actor dx dy
    | gather => exact congrArg Reactor.capacity (reactor_gather w act.actor orc)
    | deposit amt => exact rcap_deposit w act.actor
    | report amt => exact congrArg Reactor.capacity (reactor_record w act.actor amt)
    | request amt => exact congrArg Reactor.capacity (reactor_register w act.actor amt)
    | give tgt amt => exact congrArg Reactor.capacity (reactor_give w act.actor tgt amt)

theorem rinv_decideFold (policy : World → String → World × Action)
    (hf : PolicyFrame policy) : ∀ (ids : List String) (st : World × List Action),
    ReactorInv st.1 → ReactorInv (ids.foldl (decideStep policy) st).1
  | [], _, h => h
  | agentId :: rest, st, h => by
    refine rinv_decideFold policy hf rest _ ?_
    show ReactorInv (policy (autoDeposit st.1 agentId) agentId).1
    refine ReactorInv_of_eq _ _ ?_ (rinv_deposit st.1 agentId h)
    rw [hf (autoDeposit st.1 agentId) agentId]
    rfl

theorem rcap_decideFold (policy : World → String → World × Action)
    (hf : PolicyFrame policy) : ∀ (ids : List String) (st : World × List Action),
    (ids.foldl (decideStep policy) st).1.reactor.capacity = st.1.reactor.capacity
  | [], _ => rfl
  | agentId :: rest, st => by
    refine (rcap_decideFold policy hf rest _).trans ?_
    show (policy (autoDeposit st.1 agentId) agentId).1.reactor.capacity =
      st.1.reactor.capacity
    rw [hf (autoDeposit st.1 agentId) agentId]
    show (autoDeposit st.1 agentId).reactor.capacity = st.1.reactor.capacity
    exact rcap_deposit st.1 agentId

theorem rinv_applyFold (orc : Nat → Nat) : ∀ (acts : List Action) (st : World × Nat),
    ReactorInv st.1 → ReactorInv (acts.foldl (applyStep orc) st).1
  | [], _, h => h
  | act :: rest, st, h =>
    rinv_applyFold orc rest _ (rinv_apply st.1 act (orc st.2) h)

theorem rcap_applyFold (orc : Nat → Nat) : ∀ (acts : List Action) (st : World × Nat),
    (acts.foldl (applyStep orc) st).1.reactor.capacity = st.1.reactor.capacity
  | [], _ => rfl
  | act :: rest, st =>
    (rcap_applyFold orc rest (applyStep orc st act)).trans
      (rcap_apply st.1 act (orc st.2))

theorem rinv_stepWith (w : World) (policy : World → String → World × Action)
    (orc : Nat → Nat) (hf : PolicyFrame policy) (h : ReactorInv w) :
    ReactorInv (stepWith w policy orc) := by
  unfold stepWith
  exact rinv_conseq _ (rinv_consume _ (ReactorInv_of_eq _ _ (reactor_decayAgents _)
    (rinv_applyFold orc _ _ (rinv_decideFold policy hf _ _
      (ReactorInv_of_eq _ _ (reactor_decaySignals _)
        (ReactorInv_of_eq _ _ rfl h))))))

theorem rcap_stepWith (w : World) (policy : World → String → World × Action)
    (orc : Nat → Nat) (hf : PolicyFrame policy) :
    (stepWith w policy orc).reactor.capacity = w.reactor.capacity := by
  unfold stepWith
  refine (rcap_conseq _).trans ?_
  refine (rcap_consume _).trans ?_
  refine (congrArg Reactor.capacity (reactor_decayAgents _)).trans ?_
  refine (rcap_applyFold orc _ _).trans ?_
  refine (rcap_decideFold policy hf _ _).trans ?_
  exact (congrArg Reactor.capacity (reactor_decaySignals _)).trans rfl

theorem reactor_addAgent (w : World) (a : Agent) (w' : World)
    (h : addAgent w a = some w') : w'.reactor = w.reactor := by
  unfold addAgent at h
  dsimp at h
  rcases hef : ensureFreePosition w (clampPos w a.position.1 a.position.2) with _ | p
  · rw [hef] at h
    exact absurd h (by simp)
  · rw [hef] at h
    injection h with he
    rw [← he]

/-- C2: in every reachable world whose reactor capacity is non-negative
(the spec's capacity is a positive integer), the reactor's energy lies in
`[0, capacity]`: the constructor clamps the initial energy into the band
and every deposit, draw and `step()` upkeep pass preserves it. -/
theorem c2_reactor_bounds (w : World) (h : Reach w)
    (hcap : 0 ≤ w.reactor.capacity) : ReactorInv w := by
  revert hcap
  induction h with
  | init cfg draw =>
    intro hcap
    have hcap' : (0 : Int) ≤ cfg.reactor_capacity := hcap
    refine ⟨?_, ?_⟩
    · show 0 ≤ max 0 (min cfg.reactor_initial_energy cfg.reactor_capacity)
      omega
    · show max 0 (min cfg.reactor_initial_energy cfg.reactor_capacity) ≤
        cfg.reactor_capacity
      omega
  | add w0 a w' hr hfresh hadd ih =>
    intro hcap
    have he := reactor_addAgent w0 a w' hadd
    rw [he] at hcap
    exact ReactorInv_of_eq _ _ he (ih hcap)
  | step w0 policy orc hr hf ih =>
    intro hcap
    rw [rcap_stepWith w0 policy orc hf] at hcap
    exact rinv_stepWith w0 policy orc hf (ih hcap)

/-- Witness for C2 at the concrete 2x2 configuration (capacity 10): the
fresh world is reachable and its reactor energy is clamped into bounds. -/
theorem c2_witness : ReactorInv (worldInit cfgA drawNone) :=
  c2_reactor_bounds (worldInit cfgA drawNone) (Reach.init cfgA drawNone) (by decide)

end AgentTown
